import Mathlib

/-!
# Verification of the trading decision engine

A shallow embedding of the engine's core subsystems, translated from the
TypeScript source:

* `MarketDataService` — rolling price windows and technical indicators
  (`src/solana/MarketDataService.ts`);
* `TradingStrategy` — the position ledger: opening, managing and closing
  positions, and the aggregate trade statistics
  (`src/solana/TradingStrategy.ts`);
* `RiskManager` — the risk gate (`src/solana/RiskManager.ts`);
* `Backtester` — the backtest simulator (`Backtester.ts`).

Modelling conventions:

* `Big.js` decimal values are modelled as `ℚ` (exact rational arithmetic);
  JavaScript `number` values that carry monetary/price data are likewise `ℚ`.
* Timestamps (`Date.now()` milliseconds) are `ℤ`.
* `Big#sqrt` (a digit-limited Newton iteration) is modelled by `Rat.sqrt`;
  no theorem below depends on the value of a square root except at `0`,
  where both return `0` exactly.
* The external swap interface (`JupiterService.getQuote` / `executeSwap`)
  is modelled as an oracle (`TradeEnv`), following the external-interface
  contract: `quote → Quote | none`, `executeQuote → SwapResult | failure`.
* JavaScript `Map`s keyed by insertion order are modelled as lists, with
  `set` on a fresh key appending and `delete` filtering.
* Log output and human-readable reason strings are abstracted to inductive
  tags carrying the same case distinctions.
-/

namespace PerpArb

/-! ## Price window (`MarketDataService.updatePriceHistory`) -/

/-- A per-instrument rolling price window (`PriceHistory` in the source):
parallel lists of prices and timestamps, bounded by `maxLength`. -/
structure PriceWindow where
  prices : List ℚ
  timestamps : List ℤ
  maxLength : ℕ
  deriving DecidableEq

/-- The `while (history.prices.length > history.maxLength) { shift(); }`
loop: drop from the front of both parallel lists until the price list
fits the bound. -/
def trimWindow (maxLength : ℕ) (ps : List ℚ) (ts : List ℤ) : List ℚ × List ℤ :=
  if ps.length > maxLength then trimWindow maxLength ps.tail ts.tail else (ps, ts)
termination_by ps.length
decreasing_by
  simp only [List.length_tail]
  omega

/-- `updatePriceHistory`: push the new observation at the back, then evict
from the front while over the bound. -/
def updatePriceHistory (w : PriceWindow) (price : ℚ) (timestamp : ℤ) : PriceWindow :=
  { prices := (trimWindow w.maxLength (w.prices ++ [price]) (w.timestamps ++ [timestamp])).1,
    timestamps := (trimWindow w.maxLength (w.prices ++ [price]) (w.timestamps ++ [timestamp])).2,
    maxLength := w.maxLength }

/-- The empty window installed by `MarketDataService.init` (the source
default bound is 60). -/
def emptyWindow (maxLength : ℕ) : PriceWindow :=
  { prices := [], timestamps := [], maxLength := maxLength }

/-- Feed a whole sequence of `(price, timestamp)` observations into an
initially empty window. -/
def observeAll (maxLength : ℕ) (obs : List (ℚ × ℤ)) : PriceWindow :=
  obs.foldl (fun w o => updatePriceHistory w o.1 o.2) (emptyWindow maxLength)

/-- The last `n` entries of a list (JavaScript `slice(-n)` for `n > 0`). -/
def lastSlice {α : Type} (n : ℕ) (l : List α) : List α :=
  l.drop (l.length - n)

theorem lastSlice_def {α : Type} (n : ℕ) (l : List α) :
    lastSlice n l = l.drop (l.length - n) := rfl

theorem length_lastSlice {α : Type} (n : ℕ) (l : List α) :
    (lastSlice n l).length = l.length - (l.length - n) := by
  simp [lastSlice]

theorem lastSlice_of_le {α : Type} {n : ℕ} {l : List α} (h : l.length ≤ n) :
    lastSlice n l = l := by
  simp [lastSlice, Nat.sub_eq_zero_of_le h]

theorem trimWindow_eq (N : ℕ) :
    ∀ (ps : List ℚ) (ts : List ℤ), ps.length = ts.length →
      trimWindow N ps ts = (lastSlice N ps, lastSlice N ts) := by
  intro ps
  induction ps with
  | nil =>
    intro ts h
    rw [trimWindow]
    cases ts with
    | nil => simp [lastSlice]
    | cons t ts => simp at h
  | cons p ps ih =>
    intro ts h
    rw [trimWindow]
    cases ts with
    | nil => simp at h
    | cons t ts =>
      simp only [List.length_cons] at h
      by_cases hlen : (p :: ps).length > N
      · simp only [hlen, if_true, List.tail_cons]
        rw [ih ts (by omega)]
        have hps : ps.length ≥ N := by
          simp only [List.length_cons] at hlen; omega
        have h1 : (p :: ps).length - N = (ps.length - N) + 1 := by
          simp only [List.length_cons]; omega
        have h2 : (t :: ts).length - N = (ts.length - N) + 1 := by
          simp only [List.length_cons]; omega
        have e1 : lastSlice N (p :: ps) = lastSlice N ps := by
          rw [lastSlice_def, lastSlice_def, h1, List.drop_succ_cons]
        have e2 : lastSlice N (t :: ts) = lastSlice N ts := by
          rw [lastSlice_def, lastSlice_def, h2, List.drop_succ_cons]
        rw [e1, e2]
      · simp only [hlen, if_false]
        have hA : (p :: ps).length ≤ N := by omega
        have hB : (t :: ts).length ≤ N := by
          simp only [List.length_cons] at hA ⊢
          omega
        rw [lastSlice_of_le hA, lastSlice_of_le hB]

theorem lastSlice_append_lastSlice {α : Type} (N : ℕ) (A : List α) (p : α) :
    lastSlice N (lastSlice N A ++ [p]) = lastSlice N (A ++ [p]) := by
  by_cases hA : A.length ≤ N
  · rw [lastSlice_of_le hA]
  · have hlen : (lastSlice N A).length = N := by
      rw [length_lastSlice]; omega
    rcases Nat.eq_zero_or_pos N with hN | hN
    · subst hN
      have h1 : lastSlice 0 A = [] := List.length_eq_zero.mp hlen
      rw [h1, List.nil_append]
      simp [lastSlice]
    · have h2 : (lastSlice N A ++ [p]).length - N = 1 := by
        simp [hlen]
      have h3 : (A ++ [p]).length - N = (A.length - N) + 1 := by
        simp only [List.length_append, List.length_singleton]
        omega
      calc lastSlice N (lastSlice N A ++ [p])
          = (lastSlice N A ++ [p]).drop 1 := by rw [lastSlice_def, h2]
        _ = (lastSlice N A).drop 1 ++ [p] := by
              apply List.drop_append_of_le_length
              rw [hlen]
              omega
        _ = A.drop ((A.length - N) + 1) ++ [p] := by
              rw [lastSlice_def, List.drop_drop, Nat.add_comm]
        _ = (A ++ [p]).drop ((A.length - N) + 1) := by
              rw [List.drop_append_of_le_length (by omega)]
        _ = lastSlice N (A ++ [p]) := by rw [lastSlice_def, h3]

theorem observeAll_append (N : ℕ) (obs : List (ℚ × ℤ)) (o : ℚ × ℤ) :
    observeAll N (obs ++ [o]) = updatePriceHistory (observeAll N obs) o.1 o.2 := by
  simp [observeAll, List.foldl_append]

theorem observeAll_eq (N : ℕ) (obs : List (ℚ × ℤ)) :
    observeAll N obs =
      { prices := lastSlice N (obs.map Prod.fst),
        timestamps := lastSlice N (obs.map Prod.snd),
        maxLength := N } := by
  induction obs using List.reverseRecOn with
  | nil => simp [observeAll, emptyWindow, lastSlice]
  | append_singleton obs o ih =>
    rw [observeAll_append, ih]
    have hlen : (lastSlice N (obs.map Prod.fst)).length
        = (lastSlice N (obs.map Prod.snd)).length := by
      simp [length_lastSlice]
    simp only [updatePriceHistory]
    rw [trimWindow_eq N _ _ (by simp [hlen])]
    simp only [List.map_append, List.map_cons, List.map_nil]
    congr 1 <;> rw [lastSlice_append_lastSlice]

/-- **C1.** For every sequence of price observations appended to an
instrument's price window (bound `N`, default 60 in the source), the
window's length never exceeds `N`, it contains exactly the most recent
observations — the length-`N` suffix of the full observation sequence —
and prices and timestamps remain in chronological (insertion) order with
the oldest entry evicted first once the window is full. -/
theorem updatePriceHistory_window_bounded_fifo (N : ℕ) (obs : List (ℚ × ℤ)) :
    (observeAll N obs).prices.length ≤ N ∧
    (observeAll N obs).prices = lastSlice N (obs.map Prod.fst) ∧
    (observeAll N obs).timestamps = lastSlice N (obs.map Prod.snd) ∧
    (observeAll N obs).maxLength = N := by
  rw [observeAll_eq]
  refine ⟨?_, rfl, rfl, rfl⟩
  rw [length_lastSlice]
  omega

/-! ## Indicator engine (`MarketDataService`)

Each indicator is translated per instrument: the source looks the
instrument's `PriceHistory` up in a map and reads its `prices` array; the
model takes that price list directly.  `Big#sqrt` is modelled by
`Rat.sqrt`. -/

/-- `reduce((acc, p) => acc.add(p), Big(0))`. -/
def sumQ (l : List ℚ) : ℚ := l.foldl (· + ·) 0

namespace MarketDataService

/-- `calculateSMA`: arithmetic mean of the last `periods` prices. -/
def calculateSMA (prices : List ℚ) (periods : ℕ) : Option ℚ :=
  if prices.length < periods then none
  else some (sumQ (lastSlice periods prices) / periods)

/-- The EMA update loop `ema = p*multiplier + ema*(1 - multiplier)` folded
over a price list. -/
def emaFold (multiplier seed : ℚ) (l : List ℚ) : ℚ :=
  l.foldl (fun ema p => p * multiplier + ema * (1 - multiplier)) seed

/-- `calculateEMA`: seeds with `calculateSMA` (mean of the *last*
`periods` prices) and then re-applies the EMA update to entries
`1, …, periods−1` of that same recent slice.  The source's non-null
assertion on the seed (`this.calculateSMA(mint, periods)!`) becomes
`Option.map`; under the guard the seed is always available. -/
def calculateEMA (prices : List ℚ) (periods : ℕ) : Option ℚ :=
  if prices.length < periods then none
  else
    (calculateSMA prices periods).map (fun sma =>
      emaFold (2 / ((periods : ℚ) + 1)) sma ((lastSlice periods prices).drop 1))

/-- `calculateEMAFromPrices`: seeds with the mean of the *first* `periods`
prices and iterates the EMA update over all later prices. -/
def calculateEMAFromPrices (prices : List ℚ) (periods : ℕ) : Option ℚ :=
  if prices.length < periods then none
  else
    some (emaFold (2 / ((periods : ℚ) + 1))
      (sumQ (prices.take periods) / periods) (prices.drop periods))

/-- Adjacent deltas `l[i] − l[i−1]` of a price list. -/
def adjacentDiffs (l : List ℚ) : List ℚ :=
  List.zipWith (fun a b => a - b) l.tail l

/-- The gains/losses accumulation loop of `calculateRSI`: positive deltas
add to gains, other deltas add their absolute value to losses. -/
def gainsLosses (diffs : List ℚ) : ℚ × ℚ :=
  diffs.foldl
    (fun gl change => if change > 0 then (gl.1 + change, gl.2) else (gl.1, gl.2 + |change|))
    (0, 0)

/-- `calculateRSI` over the last `periods + 1` prices. -/
def calculateRSI (prices : List ℚ) (periods : ℕ) : Option ℚ :=
  if prices.length < periods + 1 then none
  else
    let gl := gainsLosses (adjacentDiffs (lastSlice (periods + 1) prices))
    if gl.2 = 0 then some 100
    else
      let avgGain := gl.1 / periods
      let avgLoss := gl.2 / periods
      let rs := avgGain / avgLoss
      some (100 - 100 / (1 + rs))

structure MACDValue where
  macd : ℚ
  signal : ℚ
  histogram : ℚ
  deriving DecidableEq

/-- `calculateMACD`: EMA(12) − EMA(26); signal line = 9-period EMA of the
MACD series recomputed at each index ≥ 26 via `calculateEMAFromPrices`. -/
def calculateMACD (prices : List ℚ) : Option MACDValue :=
  match calculateEMA prices 12, calculateEMA prices 26 with
  | some ema12, some ema26 =>
      let macd := ema12 - ema26
      if prices.length < 35 then none
      else
        let macdValues := ((List.range prices.length).drop 26).filterMap (fun i =>
          match calculateEMAFromPrices (prices.take (i + 1)) 12,
                calculateEMAFromPrices (prices.take (i + 1)) 26 with
          | some e12, some e26 => some (e12 - e26)
          | _, _ => none)
        if macdValues.length < 9 then none
        else
          let signalLine := emaFold (2 / 10) (sumQ (macdValues.take 9) / 9) (macdValues.drop 9)
          some ⟨macd, signalLine, macd - signalLine⟩
  | _, _ => none

structure BollingerValue where
  upper : ℚ
  middle : ℚ
  lower : ℚ
  percentB : ℚ
  deriving DecidableEq

/-- `calculateBollingerBands` (population standard deviation band). -/
def calculateBollingerBands (prices : List ℚ) (periods : ℕ) (stdDev : ℚ) : Option BollingerValue :=
  if prices.length < periods then none
  else
    let recentPrices := lastSlice periods prices
    let middle := sumQ recentPrices / periods
    let variance := sumQ (recentPrices.map (fun p => (p - middle) ^ 2)) / periods
    let std := Rat.sqrt variance
    let upper := middle + std * stdDev
    let lower := middle - std * stdDev
    let currentPrice := recentPrices.getD (recentPrices.length - 1) 0
    let percentB := if upper - lower = 0 then 1/2 else (currentPrice - lower) / (upper - lower)
    some ⟨upper, middle, lower, percentB⟩

structure StochasticValue where
  k : ℚ
  d : ℚ
  deriving DecidableEq

/-- `calculateStochastic`: %K over the last `periods` prices, %D reported
equal to %K. -/
def calculateStochastic (prices : List ℚ) (periods : ℕ) : Option StochasticValue :=
  if prices.length < periods + 3 then none
  else
    let recentPrices := lastSlice periods prices
    let currentPrice := recentPrices.getD (recentPrices.length - 1) 0
    let first := recentPrices.getD 0 0
    let highest := recentPrices.foldl (fun h p => if p > h then p else h) first
    let lowest := recentPrices.foldl (fun lo p => if p < lo then p else lo) first
    let range := highest - lowest
    let k := if range = 0 then 50 else (currentPrice - lowest) / range * 100
    some ⟨k, k⟩

/-- `calculateATR` with the close-only ±0.5% synthetic-spread
approximation. -/
def calculateATR (prices : List ℚ) (periods : ℕ) : Option ℚ :=
  if prices.length < periods + 1 then none
  else
    let ps := lastSlice (periods + 1) prices
    let trueRanges := List.zipWith (fun cur prev =>
      let high := cur
      let low := cur * (995 / 1000)
      let tr1 := high - low
      let tr2 := |high - prev|
      let tr3 := |low - prev|
      if tr1 > tr2 then (if tr1 > tr3 then tr1 else tr3)
      else (if tr2 > tr3 then tr2 else tr3)) ps.tail ps
    some (sumQ trueRanges / (trueRanges.length : ℚ))

/-- `calculateVolatility`: population standard deviation of the last
`periods` prices divided by their mean, ×100. -/
def calculateVolatility (prices : List ℚ) (periods : ℕ) : Option ℚ :=
  if prices.length < periods then none
  else
    let recentPrices := lastSlice periods prices
    let mean := sumQ recentPrices / periods
    let variance := sumQ (recentPrices.map (fun p => (p - mean) ^ 2)) / periods
    some (Rat.sqrt variance / mean * 100)

/-- `calculateMomentum`. -/
def calculateMomentum (prices : List ℚ) (periods : ℕ) : Option ℚ :=
  if prices.length < periods + 1 then none
  else
    let currentPrice := prices.getD (prices.length - 1) 0
    let pastPrice := prices.getD (prices.length - periods - 1) 0
    some ((currentPrice - pastPrice) / pastPrice * 100)

end MarketDataService

/-! ## Signal generator (`MarketDataService.analyzeMarket`) -/

inductive Verdict
  | buy
  | sell
  | hold
  deriving DecidableEq

/-- Tags standing for the human-readable `reason` strings. -/
inductive SignalReason
  | noData
  | multiIndicatorBuy
  | multiIndicatorSell
  | insufficientStrength
  | blank
  deriving DecidableEq

/-- An instrument from the fixed registry (`TokenInfo`): the mint is
abstracted to a numeric key. -/
structure TokenInfo where
  mint : ℕ
  decimals : ℕ
  deriving DecidableEq

structure MarketSignal where
  token : TokenInfo
  signal : Verdict
  confidence : ℚ
  currentPrice : ℚ
  targetPrice : ℚ
  stopLoss : ℚ
  reason : SignalReason
  deriving DecidableEq

namespace MarketDataService

/-- The weighted indicator votes accumulated by `analyzeMarket` (the
`signals` array), given the already-computed RSI, trend strength and
volatility. -/
def signalList (prices : List ℚ) (rsi trendStrength volatility : ℚ) : List (Verdict × ℚ) :=
  (if rsi < 30 then [(Verdict.buy, 1/4 * (30 - rsi) / 30)]
   else if rsi > 70 then [(Verdict.sell, 1/4 * (rsi - 70) / 30)]
   else []) ++
  (match calculateMACD prices with
   | some m =>
       if m.histogram > 0 ∧ m.macd > 0 then [(Verdict.buy, (1/5 : ℚ))]
       else if m.histogram < 0 ∧ m.macd < 0 then [(Verdict.sell, (1/5 : ℚ))]
       else []
   | none => []) ++
  (match calculateBollingerBands prices 20 2 with
   | some b =>
       if b.percentB < 1/10 then [(Verdict.buy, 1/5 * (1 - b.percentB * 2))]
       else if b.percentB > 9/10 then [(Verdict.sell, 1/5 * (b.percentB - 1/2) * 2)]
       else []
   | none => []) ++
  (match calculateStochastic prices 14 with
   | some s =>
       if s.k < 20 then [(Verdict.buy, (3/20 : ℚ))]
       else if s.k > 80 then [(Verdict.sell, (3/20 : ℚ))]
       else []
   | none => []) ++
  (match calculateMomentum prices 10 with
   | some m =>
       if m > 1 ∧ trendStrength > 0 then [(Verdict.buy, (1/10 : ℚ))]
       else if m < -1 ∧ trendStrength < 0 then [(Verdict.sell, (1/10 : ℚ))]
       else []
   | none => []) ++
  (if volatility < 3 then
     (if trendStrength > 1/2 then [(Verdict.buy, (1/10 : ℚ))]
      else if trendStrength < -1/2 then [(Verdict.sell, (1/10 : ℚ))]
      else [])
   else [])

/-- `signals.filter(s => s.type === v).reduce((a, s) => a + s.weight, 0)`. -/
def weightOf (v : Verdict) (signals : List (Verdict × ℚ)) : ℚ :=
  (signals.filter (fun s => decide (s.1 = v))).foldl (fun a s => a + s.2) 0

/-- The summed BUY and SELL weights of `analyzeMarket` ((0, 0) when one of
the four always-required indicators is unavailable). -/
def marketWeights (prices : List ℚ) : ℚ × ℚ :=
  match calculateSMA prices 5, calculateSMA prices 20,
        calculateRSI prices 14, calculateVolatility prices 20 with
  | some sma5, some sma20, some rsi, some volatility =>
      let trendStrength := (sma5 - sma20) / sma20 * 100
      let signals := signalList prices rsi trendStrength volatility
      (weightOf Verdict.buy signals, weightOf Verdict.sell signals)
  | _, _, _, _ => (0, 0)

/-- The net-signal selection of `analyzeMarket`: the side whose weight
exceeds the other's and exceeds 0.5 wins, with confidence
`min(0.9, weight)`; otherwise HOLD with confidence 0. -/
def combineVerdict (buyWeight sellWeight : ℚ) : Verdict × ℚ × SignalReason :=
  if buyWeight > sellWeight ∧ buyWeight > 1/2 then
    (Verdict.buy, min (9/10) buyWeight, SignalReason.multiIndicatorBuy)
  else if sellWeight > buyWeight ∧ sellWeight > 1/2 then
    (Verdict.sell, min (9/10) sellWeight, SignalReason.multiIndicatorSell)
  else (Verdict.hold, 0, SignalReason.blank)

/-- The signal/confidence/reason computed by the multi-indicator block of
`analyzeMarket`, before the final confidence gate. -/
def rawSignal (prices : List ℚ) : Verdict × ℚ × SignalReason :=
  match calculateSMA prices 5, calculateSMA prices 20,
        calculateRSI prices 14, calculateVolatility prices 20 with
  | some sma5, some sma20, some rsi, some volatility =>
      let trendStrength := (sma5 - sma20) / sma20 * 100
      let signals := signalList prices rsi trendStrength volatility
      combineVerdict (weightOf Verdict.buy signals) (weightOf Verdict.sell signals)
  | _, _, _, _ => (Verdict.hold, 0, SignalReason.blank)

/-- `analyzeMarket` for one instrument, given the instrument's last
fetched price (`lastPrices` entry) and its price history. -/
def analyzeMarket (token : TokenInfo) (lastPrice : Option ℚ) (prices : List ℚ) : MarketSignal :=
  match lastPrice with
  | none =>
      { token := token, signal := Verdict.hold, confidence := 0,
        currentPrice := 0, targetPrice := 0, stopLoss := 0,
        reason := SignalReason.noData }
  | some currentPrice =>
      let rs := rawSignal prices
      let confidence := rs.2.1
      let signal := if confidence < 3/5 then Verdict.hold else rs.1
      let reason := if confidence < 3/5 then SignalReason.insufficientStrength else rs.2.2
      let atrMultiplier := match calculateATR prices 14 with
        | some atr => atr / currentPrice * 100
        | none => 1/2
      let targetMultiplier := if signal = Verdict.buy
        then 1 + max (1/2) (atrMultiplier * (3/2)) / 100
        else 1 - max (1/2) (atrMultiplier * (3/2)) / 100
      let stopMultiplier := if signal = Verdict.buy
        then 1 - max (3/10) atrMultiplier / 100
        else 1 + max (3/10) atrMultiplier / 100
      { token := token, signal := signal, confidence := confidence,
        currentPrice := currentPrice,
        targetPrice := currentPrice * targetMultiplier,
        stopLoss := currentPrice * stopMultiplier,
        reason := reason }

theorem rawSignal_eq_combine (prices : List ℚ) :
    rawSignal prices = combineVerdict (marketWeights prices).1 (marketWeights prices).2 := by
  unfold rawSignal marketWeights
  rcases calculateSMA prices 5 with _ | s5 <;>
    rcases calculateSMA prices 20 with _ | s20 <;>
      rcases calculateRSI prices 14 with _ | r <;>
        rcases calculateVolatility prices 20 with _ | v <;>
          simp [combineVerdict]

/-! ### C7 — the EMA formula -/

/-- The EMA formula as the spec words it, for comparison with the source
definitions: seed = SMA over the earliest `periods` prices of the given
lookback slice, then iterate forward over the remaining prices with
multiplier `2/(periods+1)`; no value with fewer than `periods` entries. -/
def emaSpecFormula (prices : List ℚ) (periods : ℕ) : Option ℚ :=
  if prices.length < periods then none
  else
    some (emaFold (2 / ((periods : ℚ) + 1))
      (sumQ (prices.take periods) / periods) (prices.drop periods))

/-- **C7 counterexample.** On the two-entry history `[1, 2]` with
`periods = 2`, `calculateEMA` returns `11/6`: it seeds with the SMA `3/2`
of its lookback slice (the last two prices) and then re-applies the EMA
update to the price `2`, which the seed already covers.  The claimed
formula — seed with the SMA of the earliest `periods` prices of the
lookback slice, iterate only over the remaining prices — gives `3/2`,
since no prices remain beyond the seed. -/
theorem calculateEMA_spec_counterexample :
    calculateEMA [1, 2] 2 ≠ emaSpecFormula (lastSlice 2 [1, 2]) 2 ∧
    calculateEMA [1, 2] 2 = some (11/6) ∧
    emaSpecFormula (lastSlice 2 [1, 2]) 2 = some (3/2) := by
  have h1 : calculateEMA [1, 2] 2 = some (11/6) := by
    norm_num [calculateEMA, calculateSMA, emaFold, sumQ, lastSlice]
  have h2 : emaSpecFormula (lastSlice 2 [1, 2]) 2 = some (3/2) := by
    norm_num [emaSpecFormula, emaFold, sumQ, lastSlice]
  refine ⟨?_, h1, h2⟩
  rw [h1, h2]
  simp only [ne_eq, Option.some.injEq]
  norm_num

/-- **C7 (amended).** `calculateEMAFromPrices` computes EMA exactly as
claimed: seed = SMA of the earliest `periods` prices, iterate forward
over the remaining prices with multiplier `2/(periods+1)`, no value with
fewer than `periods` entries.  `calculateEMA` also returns no value with
fewer than `periods` entries, but seeds with the SMA of the *last*
`periods` prices and re-applies the EMA recurrence to all but the first
of those same seeded prices — equivalently, it is the spec formula
applied to the recent slice with its own tail appended again. -/
theorem calculateEMA_amended :
    (∀ (prices : List ℚ) (periods : ℕ),
      calculateEMAFromPrices prices periods = emaSpecFormula prices periods) ∧
    (∀ (prices : List ℚ) (periods : ℕ), prices.length < periods →
      calculateEMA prices periods = none) ∧
    (∀ (prices : List ℚ) (periods : ℕ), 0 < periods → periods ≤ prices.length →
      calculateEMA prices periods =
        emaSpecFormula (lastSlice periods prices ++ (lastSlice periods prices).drop 1) periods) := by
  refine ⟨fun prices periods => rfl, ?_, ?_⟩
  · intro prices periods h
    simp [calculateEMA, h]
  · intro prices periods hpos hle
    have hg : ¬ prices.length < periods := not_lt.mpr hle
    have hslice : (lastSlice periods prices).length = periods := by
      rw [length_lastSlice]; omega
    have hg2 : ¬ (lastSlice periods prices ++ (lastSlice periods prices).drop 1).length < periods := by
      simp only [List.length_append, List.length_drop, hslice, not_lt]
      omega
    have hsma : calculateSMA prices periods
        = some (sumQ (lastSlice periods prices) / periods) := by
      unfold calculateSMA
      rw [if_neg hg]
    unfold calculateEMA emaSpecFormula
    rw [if_neg hg, if_neg hg2, hsma, Option.map_some',
        List.take_left' hslice, List.drop_left' hslice]

/-- C7 witness: the amended characterisation evaluated at the concrete
history `[1, 2]` with `periods = 2`. -/
theorem calculateEMA_amended_witness :
    (0 < 2 ∧ 2 ≤ ([1, 2] : List ℚ).length) ∧
    calculateEMA [1, 2] 2
      = emaSpecFormula (lastSlice 2 [1, 2] ++ (lastSlice 2 [1, 2]).drop 1) 2 :=
  ⟨⟨by decide, by decide⟩, calculateEMA_amended.2.2 [1, 2] 2 (by decide) (by decide)⟩

/-! ### C8 — the weighted verdict -/

theorem combineVerdict_fst_buy {bw sw : ℚ} (h : (combineVerdict bw sw).1 = Verdict.buy) :
    bw > sw ∧ bw > 1/2 ∧ (combineVerdict bw sw).2.1 = min (9/10) bw := by
  by_cases h1 : bw > sw ∧ bw > 1/2
  · refine ⟨h1.1, h1.2, ?_⟩
    unfold combineVerdict
    rw [if_pos h1]
  · exfalso
    unfold combineVerdict at h
    rw [if_neg h1] at h
    by_cases h2 : sw > bw ∧ sw > 1/2
    · rw [if_pos h2] at h
      exact Verdict.noConfusion h
    · rw [if_neg h2] at h
      exact Verdict.noConfusion h

theorem combineVerdict_fst_sell {bw sw : ℚ} (h : (combineVerdict bw sw).1 = Verdict.sell) :
    sw > bw ∧ sw > 1/2 ∧ (combineVerdict bw sw).2.1 = min (9/10) sw := by
  by_cases h1 : bw > sw ∧ bw > 1/2
  · exfalso
    unfold combineVerdict at h
    rw [if_pos h1] at h
    exact Verdict.noConfusion h
  · by_cases h2 : sw > bw ∧ sw > 1/2
    · refine ⟨h2.1, h2.2, ?_⟩
      unfold combineVerdict
      rw [if_neg h1, if_pos h2]
    · exfalso
      unfold combineVerdict at h
      rw [if_neg h1, if_neg h2] at h
      exact Verdict.noConfusion h

theorem combineVerdict_conf_le (bw sw : ℚ) : (combineVerdict bw sw).2.1 ≤ 9/10 := by
  unfold combineVerdict
  by_cases h1 : bw > sw ∧ bw > 1/2
  · rw [if_pos h1]
    exact min_le_left _ _
  · rw [if_neg h1]
    by_cases h2 : sw > bw ∧ sw > 1/2
    · rw [if_pos h2]
      exact min_le_left _ _
    · rw [if_neg h2]
      norm_num

theorem analyzeMarket_some_signal (token : TokenInfo) (p : ℚ) (prices : List ℚ) :
    (analyzeMarket token (some p) prices).signal
      = if (rawSignal prices).2.1 < 3/5 then Verdict.hold else (rawSignal prices).1 := rfl

theorem analyzeMarket_some_conf (token : TokenInfo) (p : ℚ) (prices : List ℚ) :
    (analyzeMarket token (some p) prices).confidence = (rawSignal prices).2.1 := rfl

/-- **C8.** For every market evaluation: when no price has been observed
the result is HOLD with confidence 0; the emitted verdict is BUY (resp.
SELL) only when that side's summed weight exceeds the other side's and
exceeds 0.5, with confidence `min(0.9, winning weight)`; a result with
confidence below 0.6 is always downgraded to HOLD, so an actionable
BUY/SELL signal has confidence in `[0.6, 0.9]`. -/
theorem analyzeMarket_weighted_verdict (token : TokenInfo) (lastPrice : Option ℚ)
    (prices : List ℚ) :
    (lastPrice = none →
      (analyzeMarket token lastPrice prices).signal = Verdict.hold ∧
      (analyzeMarket token lastPrice prices).confidence = 0) ∧
    ((analyzeMarket token lastPrice prices).signal = Verdict.buy →
      (marketWeights prices).1 > (marketWeights prices).2 ∧
      (marketWeights prices).1 > 1/2 ∧
      (analyzeMarket token lastPrice prices).confidence = min (9/10) (marketWeights prices).1) ∧
    ((analyzeMarket token lastPrice prices).signal = Verdict.sell →
      (marketWeights prices).2 > (marketWeights prices).1 ∧
      (marketWeights prices).2 > 1/2 ∧
      (analyzeMarket token lastPrice prices).confidence = min (9/10) (marketWeights prices).2) ∧
    ((analyzeMarket token lastPrice prices).signal = Verdict.buy ∨
        (analyzeMarket token lastPrice prices).signal = Verdict.sell →
      3/5 ≤ (analyzeMarket token lastPrice prices).confidence ∧
      (analyzeMarket token lastPrice prices).confidence ≤ 9/10) ∧
    ((analyzeMarket token lastPrice prices).confidence < 3/5 →
      (analyzeMarket token lastPrice prices).signal = Verdict.hold) := by
  refine ⟨?_, ?_, ?_, ?_, ?_⟩
  · rintro rfl
    exact ⟨rfl, rfl⟩
  · intro h
    cases lastPrice with
    | none => exact absurd h (by simp [analyzeMarket])
    | some p =>
      rw [analyzeMarket_some_signal] at h
      by_cases hlt : (rawSignal prices).2.1 < 3/5
      · rw [if_pos hlt] at h
        exact absurd h (by simp)
      · rw [if_neg hlt] at h
        rw [rawSignal_eq_combine] at h
        have h3 := combineVerdict_fst_buy h
        rw [analyzeMarket_some_conf, rawSignal_eq_combine]
        exact h3
  · intro h
    cases lastPrice with
    | none => exact absurd h (by simp [analyzeMarket])
    | some p =>
      rw [analyzeMarket_some_signal] at h
      by_cases hlt : (rawSignal prices).2.1 < 3/5
      · rw [if_pos hlt] at h
        exact absurd h (by simp)
      · rw [if_neg hlt] at h
        rw [rawSignal_eq_combine] at h
        have h3 := combineVerdict_fst_sell h
        rw [analyzeMarket_some_conf, rawSignal_eq_combine]
        exact h3
  · intro h
    cases lastPrice with
    | none =>
      exact absurd h (by simp [analyzeMarket])
    | some p =>
      rw [analyzeMarket_some_signal] at h
      rw [analyzeMarket_some_conf]
      by_cases hlt : (rawSignal prices).2.1 < 3/5
      · rw [if_pos hlt] at h
        exact absurd h (by simp)
      · refine ⟨not_lt.mp hlt, ?_⟩
        rw [rawSignal_eq_combine]
        exact combineVerdict_conf_le _ _
  · intro h
    cases lastPrice with
    | none => rfl
    | some p =>
      rw [analyzeMarket_some_conf] at h
      rw [analyzeMarket_some_signal, if_pos h]

/-- C8 witness: with no observed price, the evaluation yields HOLD with
confidence 0. -/
theorem analyzeMarket_weighted_verdict_witness :
    (analyzeMarket ⟨0, 9⟩ none [1, 2, 3]).signal = Verdict.hold ∧
    (analyzeMarket ⟨0, 9⟩ none [1, 2, 3]).confidence = 0 :=
  (analyzeMarket_weighted_verdict ⟨0, 9⟩ none [1, 2, 3]).1 rfl

end MarketDataService

/-! ## Position ledger (`TradingStrategy`)

The external swap interface is an oracle `TradeEnv`: `getQuote` answers a
quote request with a quote or `none`, `executeSwap` settles a quote with
the executed input/output amounts or fails.  `lastPrice` is
`MarketDataService.getLastPrice` and `now` is `Date.now()`. -/

/-- The fields of a Jupiter quote the strategy reads. -/
structure Quote where
  inAmount : ℚ
  outAmount : ℚ
  priceImpactPct : ℚ
  deriving DecidableEq

/-- The executed-swap response (`SwapResult`): settled input and output
amounts in token units. -/
structure SwapResult where
  inputAmount : ℚ
  outputAmount : ℚ
  deriving DecidableEq

/-- Arguments of `JupiterService.getQuote`. -/
structure QuoteRequest where
  inputMint : ℕ
  outputMint : ℕ
  amount : ℚ
  inputDecimals : ℕ
  slippageBps : ℕ
  deriving DecidableEq

/-- The external collaborators of one trading step. -/
structure TradeEnv where
  getQuote : QuoteRequest → Option Quote
  executeSwap : Quote → Option SwapResult
  lastPrice : ℕ → Option ℚ
  now : ℤ

def USDC_MINT : ℕ := 0

def USDC_DECIMALS : ℕ := 6

/-- `"OPEN" | "CLOSED"`. -/
inductive PositionStatus
  | opened
  | closed
  deriving DecidableEq

structure Position where
  /-- `` `${symbol}-${Date.now()}` ``, modelled as the token key paired
  with the creation time. -/
  id : ℕ × ℤ
  token : TokenInfo
  entryPrice : ℚ
  entryAmount : ℚ
  usdcSpent : ℚ
  targetPrice : ℚ
  stopLoss : ℚ
  timestamp : ℤ
  status : PositionStatus
  exitPrice : Option ℚ
  exitAmount : Option ℚ
  pnl : Option ℚ
  deriving DecidableEq

structure TradeStats where
  totalTrades : ℕ
  winningTrades : ℕ
  losingTrades : ℕ
  totalProfit : ℚ
  totalLoss : ℚ
  netPnl : ℚ
  winRate : ℚ
  avgProfit : ℚ
  avgLoss : ℚ
  maxDrawdown : ℚ
  volume : ℚ
  deriving DecidableEq

/-- The all-zero statistics the strategy starts with. -/
def initialStats : TradeStats :=
  { totalTrades := 0, winningTrades := 0, losingTrades := 0,
    totalProfit := 0, totalLoss := 0, netPnl := 0, winRate := 0,
    avgProfit := 0, avgLoss := 0, maxDrawdown := 0, volume := 0 }

/-- The `TradingStrategy` instance state: the open-position map (a list in
insertion order, keyed by `Position.id`), closed history, statistics and
the strategy parameters. -/
structure StrategyState where
  positions : List Position
  closedPositions : List Position
  stats : TradeStats
  maxPositions : ℕ
  positionSizePercent : ℚ
  minTradeSize : ℚ
  takeProfitPercent : ℚ
  stopLossPercent : ℚ
  maxSlippageBps : ℕ
  deriving DecidableEq

namespace TradingStrategy

/-- The quote request `openLongPosition` sends: buy the signal's token
with USDC. -/
def openRequest (st : StrategyState) (signal : MarketSignal) (usdcAmount : ℚ) : QuoteRequest :=
  ⟨USDC_MINT, signal.token.mint, usdcAmount, USDC_DECIMALS, st.maxSlippageBps⟩

/-- The quote request `closePosition` sends: sell the position's entry
amount back to USDC. -/
def closeRequest (st : StrategyState) (position : Position) : QuoteRequest :=
  ⟨position.token.mint, USDC_MINT, position.entryAmount, position.token.decimals,
    st.maxSlippageBps⟩

/-- `openLongPosition`: quote the buy, reject on missing quote or price
impact above 0.5%, execute the swap, then record the position (entry
price from the signal's current price, amounts from the executed swap
result) and add the spent input to the volume statistic. -/
def openLongPosition (env : TradeEnv) (st : StrategyState) (signal : MarketSignal)
    (usdcAmount : ℚ) : Option Position × StrategyState :=
  match env.getQuote (openRequest st signal usdcAmount) with
  | none => (none, st)
  | some quote =>
      if |quote.priceImpactPct| > 1/2 then (none, st)
      else
        match env.executeSwap quote with
        | none => (none, st)
        | some result =>
            let position : Position :=
              { id := (signal.token.mint, env.now),
                token := signal.token,
                entryPrice := signal.currentPrice,
                entryAmount := result.outputAmount,
                usdcSpent := result.inputAmount,
                targetPrice := signal.currentPrice * (1 + st.takeProfitPercent / 100),
                stopLoss := signal.currentPrice * (1 - st.stopLossPercent / 100),
                timestamp := env.now,
                status := PositionStatus.opened,
                exitPrice := none, exitAmount := none, pnl := none }
            (some position,
              { st with
                  positions := st.positions ++ [position],
                  stats := { st.stats with volume := st.stats.volume + result.inputAmount } })

/-- `executeSignal`: the opening preconditions, in source order — HOLD
signals do nothing; the position size (capital × size percent) must reach
the minimum trade size; the open-position count must be below the
maximum; no open position may exist for the same instrument; only BUY
signals open (no shorting on spot). -/
def executeSignal (env : TradeEnv) (st : StrategyState) (signal : MarketSignal)
    (availableCapital : ℚ) : Option Position × StrategyState :=
  if signal.signal = Verdict.hold then (none, st)
  else if availableCapital * st.positionSizePercent < st.minTradeSize then (none, st)
  else if st.positions.length ≥ st.maxPositions then (none, st)
  else if st.positions.any (fun p => decide (p.token.mint = signal.token.mint)) then (none, st)
  else if signal.signal = Verdict.buy then
    openLongPosition env st signal (availableCapital * st.positionSizePercent)
  else (none, st)

/-- `closePosition`: quote the sell and execute it; on either failure the
state is returned unchanged (the position stays in the open map).  On
success, realized PnL = proceeds − capital committed; the statistics are
updated (strictly positive PnL counts as a win, any other PnL as a loss)
and the position moves to the closed history. -/
def closePosition (env : TradeEnv) (st : StrategyState) (position : Position)
    (currentPrice : ℚ) : StrategyState :=
  match env.getQuote (closeRequest st position) with
  | none => st
  | some quote =>
      match env.executeSwap quote with
      | none => st
      | some result =>
          let pnl := result.outputAmount - position.usdcSpent
          let closedPos : Position :=
            { position with
                status := PositionStatus.closed,
                exitPrice := some currentPrice,
                exitAmount := some result.outputAmount,
                pnl := some pnl }
          let totalTrades := st.stats.totalTrades + 1
          let volume := st.stats.volume + result.outputAmount
          let winningTrades :=
            if pnl > 0 then st.stats.winningTrades + 1 else st.stats.winningTrades
          let losingTrades :=
            if pnl > 0 then st.stats.losingTrades else st.stats.losingTrades + 1
          let totalProfit :=
            if pnl > 0 then st.stats.totalProfit + pnl else st.stats.totalProfit
          let totalLoss :=
            if pnl > 0 then st.stats.totalLoss else st.stats.totalLoss + |pnl|
          let netPnl := totalProfit - totalLoss
          let winRate := if 0 < totalTrades then (winningTrades : ℚ) / totalTrades else 0
          let avgProfit := if 0 < winningTrades then totalProfit / winningTrades else 0
          let avgLoss := if 0 < losingTrades then totalLoss / losingTrades else 0
          let maxDrawdown :=
            if netPnl < st.stats.maxDrawdown then netPnl else st.stats.maxDrawdown
          { st with
              positions := st.positions.filter (fun p => decide (p.id ≠ position.id)),
              closedPositions := st.closedPositions ++ [closedPos],
              stats :=
                { totalTrades := totalTrades, winningTrades := winningTrades,
                  losingTrades := losingTrades, totalProfit := totalProfit,
                  totalLoss := totalLoss, netPnl := netPnl, winRate := winRate,
                  avgProfit := avgProfit, avgLoss := avgLoss,
                  maxDrawdown := maxDrawdown, volume := volume } }

/-- The body of the `checkAndManagePositions` loop for one position:
skip without a price; close at target (TAKE_PROFIT) or at stop
(STOP_LOSS); otherwise with unrealized gain above 0.3% ratchet the stop
up to `price×(1−stopLoss%)` when that is higher than the current stop. -/
def stepPosition (env : TradeEnv) (st : StrategyState) (p : Position) : StrategyState :=
  match env.lastPrice p.token.mint with
  | none => st
  | some currentPrice =>
      let pnlPercent := (currentPrice - p.entryPrice) / p.entryPrice * 100
      if currentPrice ≥ p.targetPrice then closePosition env st p currentPrice
      else if currentPrice ≤ p.stopLoss then closePosition env st p currentPrice
      else if pnlPercent > 3/10 then
        let newStopLoss := currentPrice * (1 - st.stopLossPercent / 100)
        if newStopLoss > p.stopLoss then
          { st with
              positions := st.positions.map (fun q =>
                if q.id = p.id then { q with stopLoss := newStopLoss } else q) }
        else st
      else st

/-- `checkAndManagePositions`: one management pass over the open-position
map (the iteration snapshot is the entry list; each step only removes or
updates its own entry, as in the source's live `Map` iteration). -/
def checkAndManagePositions (env : TradeEnv) (st : StrategyState) : StrategyState :=
  st.positions.foldl (stepPosition env) st

/-- A sequence of management passes, each against its own market
environment. -/
def manageSeq (envs : List TradeEnv) (st : StrategyState) : StrategyState :=
  envs.foldl (fun s e => checkAndManagePositions e s) st

/-! ### C2 — opening preconditions -/

/-- **C2.** Opening a position returns no position and leaves the ledger
unchanged whenever any of these preconditions fails: the open-position
count equals the configured maximum, an open position already exists for
the same instrument, or available capital is below the minimum trade
size.  (The capital condition needs the source's invariant that the
position-size fraction is at most 1 — it is 30% — and a non-negative
available capital: the sized position `capital × percent` then stays
below the minimum whenever the capital itself is.) -/
theorem executeSignal_open_preconditions (env : TradeEnv) (st : StrategyState)
    (signal : MarketSignal) (availableCapital : ℚ)
    (hcap : 0 ≤ availableCapital) (hpct : st.positionSizePercent ≤ 1)
    (h : st.positions.length = st.maxPositions ∨
         (∃ p ∈ st.positions, p.token.mint = signal.token.mint) ∨
         availableCapital < st.minTradeSize) :
    executeSignal env st signal availableCapital = (none, st) := by
  unfold executeSignal
  by_cases hh : signal.signal = Verdict.hold
  · rw [if_pos hh]
  · rw [if_neg hh]
    by_cases hsize : availableCapital * st.positionSizePercent < st.minTradeSize
    · rw [if_pos hsize]
    · rw [if_neg hsize]
      rcases h with h1 | h2 | h3
      · rw [if_pos h1.ge]
      · by_cases hmax : st.positions.length ≥ st.maxPositions
        · rw [if_pos hmax]
        · rw [if_neg hmax]
          obtain ⟨p, hp, hmint⟩ := h2
          rw [if_pos (List.any_eq_true.mpr ⟨p, hp, decide_eq_true hmint⟩)]
      · exact absurd (lt_of_le_of_lt (mul_le_of_le_one_right hcap hpct) h3) hsize

/-! ### C4 — failed legs leave the ledger unchanged -/

/-- **C4.** If either leg of a close attempt fails — the sell quote
returns none, or executing the sell swap fails — the ledger state is
returned unchanged, so the position remains in the open set with its
status untouched (OPEN) and the trade statistics are unchanged; likewise
a quote or execution failure during open leaves the ledger with no
partial position recorded. -/
theorem failed_leg_preserves_ledger :
    (∀ (env : TradeEnv) (st : StrategyState) (position : Position) (currentPrice : ℚ),
      (env.getQuote (closeRequest st position) = none ∨
        ∃ q, env.getQuote (closeRequest st position) = some q ∧ env.executeSwap q = none) →
      closePosition env st position currentPrice = st ∧
      (closePosition env st position currentPrice).stats = st.stats ∧
      (position ∈ st.positions →
        position ∈ (closePosition env st position currentPrice).positions)) ∧
    (∀ (env : TradeEnv) (st : StrategyState) (signal : MarketSignal) (usdcAmount : ℚ),
      (env.getQuote (openRequest st signal usdcAmount) = none ∨
        ∃ q, env.getQuote (openRequest st signal usdcAmount) = some q ∧
          env.executeSwap q = none) →
      openLongPosition env st signal usdcAmount = (none, st)) := by
  constructor
  · intro env st position currentPrice hfail
    have hmain : closePosition env st position currentPrice = st := by
      unfold closePosition
      rcases hfail with hq | ⟨q, hq, hs⟩
      · simp only [hq]
      · simp only [hq, hs]
    refine ⟨hmain, by rw [hmain], fun hmem => by rw [hmain]; exact hmem⟩
  · intro env st signal usdcAmount hfail
    unfold openLongPosition
    rcases hfail with hq | ⟨q, hq, hs⟩
    · simp only [hq]
    · simp only [hq, hs]
      by_cases himp : |q.priceImpactPct| > 1/2
      · rw [if_pos himp]
      · rw [if_neg himp]

/-! ### C5 — what a successful open records -/

/-- **C5 (amended).** When a position is successfully opened, its entry
quantity and capital committed are recorded from the actually executed
swap response (`outputAmount` and `inputAmount`), but its entry price is
recorded from the signal's pre-trade current price — not from the
executed response; target and stop are `entry×(1+takeProfit%)` and
`entry×(1−stopLoss%)` of that recorded entry price. -/
theorem openLongPosition_records (env : TradeEnv) (st : StrategyState)
    (signal : MarketSignal) (usdcAmount : ℚ) (quote : Quote) (result : SwapResult)
    (hq : env.getQuote (openRequest st signal usdcAmount) = some quote)
    (himp : |quote.priceImpactPct| ≤ 1/2)
    (hx : env.executeSwap quote = some result) :
    ∃ pos,
      openLongPosition env st signal usdcAmount =
        (some pos,
          { st with
              positions := st.positions ++ [pos],
              stats := { st.stats with volume := st.stats.volume + result.inputAmount } }) ∧
      pos.entryPrice = signal.currentPrice ∧
      pos.entryAmount = result.outputAmount ∧
      pos.usdcSpent = result.inputAmount ∧
      pos.targetPrice = signal.currentPrice * (1 + st.takeProfitPercent / 100) ∧
      pos.stopLoss = signal.currentPrice * (1 - st.stopLossPercent / 100) := by
  unfold openLongPosition
  simp only [hq]
  rw [if_neg (not_lt.mpr himp)]
  simp only [hx]
  exact ⟨_, rfl, rfl, rfl, rfl, rfl, rfl⟩

/-- A concrete environment in which the executed swap settles 5 USDC for
1 token (an executed price of 5) while the signal's pre-trade current
price is 10. -/
def mismatchQuote : Quote := ⟨5, 1, 0⟩

def mismatchEnv : TradeEnv :=
  { getQuote := fun _ => some mismatchQuote,
    executeSwap := fun _ => some ⟨5, 1⟩,
    lastPrice := fun _ => none,
    now := 0 }

def sampleToken : TokenInfo := ⟨1, 9⟩

def mismatchSignal : MarketSignal :=
  { token := sampleToken, signal := Verdict.buy, confidence := 7/10,
    currentPrice := 10, targetPrice := 11, stopLoss := 9,
    reason := SignalReason.multiIndicatorBuy }

def emptyState : StrategyState :=
  { positions := [], closedPositions := [], stats := initialStats,
    maxPositions := 3, positionSizePercent := 3/10, minTradeSize := 5,
    takeProfitPercent := 1/2, stopLossPercent := 3/10, maxSlippageBps := 50 }

/-- **C5 counterexample.** With the executed response settling input 5
for output 1 (an executed price of 5/1 = 5) and a signal current price of
10, the opened position records entry price 10 — the pre-trade signal
price, not a price derived from the executed quote response. -/
theorem openLongPosition_entry_price_counterexample :
    Option.map Position.entryPrice
        (openLongPosition mismatchEnv emptyState mismatchSignal 5).1 = some 10 ∧
    Option.map (fun r => r.inputAmount / r.outputAmount)
        (mismatchEnv.executeSwap mismatchQuote) = some 5 ∧
    (10 : ℚ) ≠ 5 := by
  refine ⟨?_, ?_, by norm_num⟩
  · have hq : mismatchEnv.getQuote
        (openRequest emptyState mismatchSignal 5) = some mismatchQuote := rfl
    have hx : mismatchEnv.executeSwap mismatchQuote = some ⟨5, 1⟩ := rfl
    unfold openLongPosition
    simp only [hq]
    rw [if_neg (by norm_num [mismatchQuote])]
    simp only [hx]
    rfl
  · show some ((5 : ℚ) / 1) = some 5
    norm_num

/-- C5 witness: the amended record equations evaluated in the concrete
mismatch environment. -/
theorem openLongPosition_records_witness :
    (mismatchEnv.getQuote (openRequest emptyState mismatchSignal 5) = some mismatchQuote ∧
     |mismatchQuote.priceImpactPct| ≤ 1/2 ∧
     mismatchEnv.executeSwap mismatchQuote = some ⟨5, 1⟩) ∧
    ∃ pos,
      openLongPosition mismatchEnv emptyState mismatchSignal 5 =
        (some pos,
          { emptyState with
              positions := emptyState.positions ++ [pos],
              stats := { emptyState.stats with
                          volume := emptyState.stats.volume + (5 : ℚ) } }) ∧
      pos.entryPrice = mismatchSignal.currentPrice ∧
      pos.entryAmount = (1 : ℚ) ∧
      pos.usdcSpent = (5 : ℚ) ∧
      pos.targetPrice = mismatchSignal.currentPrice * (1 + emptyState.takeProfitPercent / 100) ∧
      pos.stopLoss = mismatchSignal.currentPrice * (1 - emptyState.stopLossPercent / 100) :=
  ⟨⟨rfl, by norm_num [mismatchQuote], rfl⟩,
    openLongPosition_records mismatchEnv emptyState mismatchSignal 5 mismatchQuote ⟨5, 1⟩
      rfl (by norm_num [mismatchQuote]) rfl⟩

/-! ### C6 — the trailing stop never moves down -/

/-- Positions after an operation all descend from a pre-operation
position with the same id and a stop no higher. -/
def stopRelated (st st' : StrategyState) : Prop :=
  ∀ p' ∈ st'.positions, ∃ p ∈ st.positions, p'.id = p.id ∧ p.stopLoss ≤ p'.stopLoss

theorem stopRelated_refl (st : StrategyState) : stopRelated st st :=
  fun p' h => ⟨p', h, rfl, le_refl _⟩

theorem stopRelated_trans {a b c : StrategyState}
    (h1 : stopRelated a b) (h2 : stopRelated b c) : stopRelated a c := by
  intro p hc
  obtain ⟨q, hb, hid, hle⟩ := h2 p hc
  obtain ⟨r, ha, hid2, hle2⟩ := h1 q hb
  exact ⟨r, ha, hid.trans hid2, hle2.trans hle⟩

theorem closePosition_positions_subset (env : TradeEnv) (st : StrategyState)
    (position : Position) (currentPrice : ℚ) :
    ∀ p' ∈ (closePosition env st position currentPrice).positions, p' ∈ st.positions := by
  intro p' h
  unfold closePosition at h
  rcases hq : env.getQuote (closeRequest st position) with _ | q
  · simp only [hq] at h
    exact h
  · simp only [hq] at h
    rcases hs : env.executeSwap q with _ | r
    · simp only [hs] at h
      exact h
    · simp only [hs] at h
      exact (List.mem_filter.mp h).1

theorem stepPosition_stopRelated (env : TradeEnv) (st₀ st : StrategyState) (p : Position)
    (hp : p ∈ st₀.positions) (hrel : stopRelated st₀ st) :
    stopRelated st₀ (stepPosition env st p) := by
  unfold stepPosition
  rcases hlast : env.lastPrice p.token.mint with _ | currentPrice
  · simp only [hlast]
    exact hrel
  · simp only [hlast]
    by_cases h1 : currentPrice ≥ p.targetPrice
    · rw [if_pos h1]
      intro p' hmem
      exact hrel p' (closePosition_positions_subset env st p currentPrice p' hmem)
    · rw [if_neg h1]
      by_cases h2 : currentPrice ≤ p.stopLoss
      · rw [if_pos h2]
        intro p' hmem
        exact hrel p' (closePosition_positions_subset env st p currentPrice p' hmem)
      · rw [if_neg h2]
        by_cases h3 : (currentPrice - p.entryPrice) / p.entryPrice * 100 > 3/10
        · rw [if_pos h3]
          by_cases h4 : currentPrice * (1 - st.stopLossPercent / 100) > p.stopLoss
          · rw [if_pos h4]
            intro p' hmem
            have h' : p' ∈ st.positions.map (fun q =>
                if q.id = p.id
                then { q with stopLoss := currentPrice * (1 - st.stopLossPercent / 100) }
                else q) := hmem
            obtain ⟨q, hq, hfq⟩ := List.mem_map.mp h'
            by_cases hid : q.id = p.id
            · rw [if_pos hid] at hfq
              refine ⟨p, hp, ?_, ?_⟩
              · rw [← hfq]
                exact hid
              · rw [← hfq]
                exact le_of_lt h4
            · rw [if_neg hid] at hfq
              obtain ⟨r, hr, hid2, hle2⟩ := hrel q hq
              exact ⟨r, hr, by rw [← hfq]; exact hid2, by rw [← hfq]; exact hle2⟩
          · rw [if_neg h4]
            exact hrel
        · rw [if_neg h3]
          exact hrel

theorem foldl_stepPosition_stopRelated (env : TradeEnv) (st₀ : StrategyState) :
    ∀ (todo : List Position) (st : StrategyState),
      (∀ p ∈ todo, p ∈ st₀.positions) → stopRelated st₀ st →
      stopRelated st₀ (todo.foldl (stepPosition env) st) := by
  intro todo
  induction todo with
  | nil =>
    intro st _ hrel
    exact hrel
  | cons p todo ih =>
    intro st hmem hrel
    rw [List.foldl_cons]
    exact ih _ (fun q hq => hmem q (List.mem_cons_of_mem _ hq))
      (stepPosition_stopRelated env st₀ st p (hmem p (List.mem_cons_self _ _)) hrel)

theorem checkAndManagePositions_stopRelated (env : TradeEnv) (st : StrategyState) :
    stopRelated st (checkAndManagePositions env st) :=
  foldl_stepPosition_stopRelated env st st.positions st (fun _ h => h) (stopRelated_refl st)

theorem manageSeq_stopRelated (envs : List TradeEnv) :
    ∀ st : StrategyState, stopRelated st (manageSeq envs st) := by
  induction envs with
  | nil =>
    intro st
    exact stopRelated_refl st
  | cons e envs ih =>
    intro st
    exact stopRelated_trans (checkAndManagePositions_stopRelated e st)
      (ih (checkAndManagePositions e st))

/-- **C6.** Across any sequence of position-management passes, every
surviving open position descends from an initial open position with the
same id whose stop was no higher: the trailing stop is ratcheted up only
when the candidate `price×(1−stopLoss%)` exceeds the current stop, and no
management operation ever lowers a position's stop. -/
theorem trailing_stop_monotonic (envs : List TradeEnv) (st : StrategyState) (p' : Position)
    (h : p' ∈ (manageSeq envs st).positions) :
    ∃ p ∈ st.positions, p'.id = p.id ∧ p.stopLoss ≤ p'.stopLoss :=
  manageSeq_stopRelated envs st p' h

/-- A position and state used by the concrete witnesses: one open
position, entry 100, target 200, stop 50. -/
def samplePosition : Position :=
  { id := (1, 0), token := sampleToken, entryPrice := 100, entryAmount := 1,
    usdcSpent := 100, targetPrice := 200, stopLoss := 50, timestamp := 0,
    status := PositionStatus.opened, exitPrice := none, exitAmount := none, pnl := none }

def sampleState : StrategyState :=
  { positions := [samplePosition], closedPositions := [], stats := initialStats,
    maxPositions := 1, positionSizePercent := 3/10, minTradeSize := 5,
    takeProfitPercent := 1/2, stopLossPercent := 3/10, maxSlippageBps := 50 }

/-- A market environment whose last price 101 puts the sample position
0.3%+ in profit, so a management pass ratchets its stop up to
`101 × 0.997 = 100.697`. -/
def trailEnv : TradeEnv :=
  { getQuote := fun _ => none, executeSwap := fun _ => none,
    lastPrice := fun _ => some 101, now := 0 }

def trailedPosition : Position :=
  { samplePosition with stopLoss := 100697/1000 }

/-- C6 witness: after one favorable management pass the surviving
position's stop has been raised, and it descends from the initial
position with a lower stop. -/
theorem trailing_stop_monotonic_witness :
    trailedPosition ∈ (manageSeq [trailEnv] sampleState).positions ∧
    ∃ p ∈ sampleState.positions,
      trailedPosition.id = p.id ∧ p.stopLoss ≤ trailedPosition.stopLoss := by
  have hm : trailedPosition ∈ (manageSeq [trailEnv] sampleState).positions := by
    norm_num [manageSeq, checkAndManagePositions, stepPosition, trailEnv, sampleState,
      samplePosition, trailedPosition, sampleToken]
  exact ⟨hm, trailing_stop_monotonic [trailEnv] sampleState trailedPosition hm⟩

/-- C2 witness: with `maxPositions = 1` and one open position, a second
open attempt is rejected and the ledger is unchanged. -/
theorem executeSignal_open_preconditions_witness :
    ((0 : ℚ) ≤ 100 ∧ sampleState.positionSizePercent ≤ 1 ∧
      sampleState.positions.length = sampleState.maxPositions) ∧
    executeSignal mismatchEnv sampleState mismatchSignal 100 = (none, sampleState) :=
  ⟨⟨by norm_num, by norm_num [sampleState], rfl⟩,
    executeSignal_open_preconditions mismatchEnv sampleState mismatchSignal 100
      (by norm_num) (by norm_num [sampleState]) (Or.inl rfl)⟩

/-- A trade environment whose quote leg always fails. -/
def failEnv : TradeEnv :=
  { getQuote := fun _ => none, executeSwap := fun _ => none,
    lastPrice := fun _ => none, now := 0 }

/-- C4 witness: with a failing sell quote the close attempt leaves the
ledger unchanged and the position still open; with a failing buy quote an
open attempt records nothing. -/
theorem failed_leg_preserves_ledger_witness :
    (failEnv.getQuote (closeRequest sampleState samplePosition) = none ∧
     failEnv.getQuote (openRequest sampleState mismatchSignal 5) = none) ∧
    closePosition failEnv sampleState samplePosition 100 = sampleState ∧
    (closePosition failEnv sampleState samplePosition 100).stats = sampleState.stats ∧
    openLongPosition failEnv sampleState mismatchSignal 5 = (none, sampleState) := by
  have h1 := failed_leg_preserves_ledger.1 failEnv sampleState samplePosition 100 (Or.inl rfl)
  have h2 := failed_leg_preserves_ledger.2 failEnv sampleState mismatchSignal 5 (Or.inl rfl)
  exact ⟨⟨rfl, rfl⟩, h1.1, h1.2.1, h2⟩

end TradingStrategy

/-! ## Risk gate (`RiskManager`) -/

structure RiskLimits where
  initialCapital : ℚ
  maxDrawdownPercent : ℚ
  maxDailyLossPercent : ℚ
  maxPositionSizePercent : ℚ
  minCapitalReserve : ℚ
  maxTradesPerHour : ℕ
  /-- seconds -/
  cooldownAfterLoss : ℤ
  deriving DecidableEq

structure RiskState where
  tradeTimestamps : List ℤ
  dailyPnl : ℚ
  dailyStartTime : ℤ
  lastLossTime : ℤ
  isPaused : Bool
  deriving DecidableEq

/-- Tags standing for the `reason` strings of `RiskStatus`. -/
inductive RiskReason
  | tradingAllowed
  | manuallyPaused
  | maxDrawdownReached
  | dailyLossLimitReached
  | belowMinimumReserve
  | maxTradesPerHourReached
  | cooldownAfterLoss
  deriving DecidableEq

structure RiskStatus where
  currentCapital : ℚ
  totalPnl : ℚ
  drawdownPercent : ℚ
  dailyPnl : ℚ
  tradesThisHour : ℕ
  isTradeAllowed : Bool
  reason : RiskReason
  deriving DecidableEq

namespace RiskManager

/-- `checkDailyReset`: zero the daily PnL accumulator when the recorded
day start lies before the current day's midnight boundary. -/
def checkDailyReset (rs : RiskState) (now dayStart : ℤ) : RiskState :=
  if rs.dailyStartTime < dayStart then { rs with dailyPnl := 0, dailyStartTime := now }
  else rs

/-- `checkRisk`: current capital is external balance plus open-position
value; drawdown% is `(initial − current)/initial × 100` (0 when the
initial capital is not positive); the trailing-hour trade count is taken
over the filtered timestamp list; then the six checks run in source
order, the first failing one denying trading and supplying the reason.
Returns the status together with the updated state (filtered timestamps,
possibly reset daily PnL). -/
def checkRisk (limits : RiskLimits) (rs : RiskState)
    (usdcBalance positionValue netPnl : ℚ) (now dayStart : ℤ) :
    RiskStatus × RiskState :=
  let currentCapital := usdcBalance + positionValue
  let rs1 := checkDailyReset rs now dayStart
  let drawdownPercent :=
    if limits.initialCapital > 0
    then (limits.initialCapital - currentCapital) / limits.initialCapital * 100
    else 0
  let tradeTimestamps := rs1.tradeTimestamps.filter (fun t => decide (t > now - 3600000))
  let tradesThisHour := tradeTimestamps.length
  let decision : Bool × RiskReason :=
    if rs1.isPaused then (false, RiskReason.manuallyPaused)
    else if drawdownPercent ≥ limits.maxDrawdownPercent then
      (false, RiskReason.maxDrawdownReached)
    else if rs1.dailyPnl < 0 ∧
        |rs1.dailyPnl| / limits.initialCapital * 100 ≥ limits.maxDailyLossPercent then
      (false, RiskReason.dailyLossLimitReached)
    else if usdcBalance < limits.minCapitalReserve then
      (false, RiskReason.belowMinimumReserve)
    else if tradesThisHour ≥ limits.maxTradesPerHour then
      (false, RiskReason.maxTradesPerHourReached)
    else if rs1.lastLossTime > 0 ∧ now - rs1.lastLossTime < limits.cooldownAfterLoss * 1000 then
      (false, RiskReason.cooldownAfterLoss)
    else (true, RiskReason.tradingAllowed)
  ({ currentCapital := currentCapital, totalPnl := netPnl,
     drawdownPercent := drawdownPercent, dailyPnl := rs1.dailyPnl,
     tradesThisHour := tradesThisHour,
     isTradeAllowed := decision.1, reason := decision.2 },
   { rs1 with tradeTimestamps := tradeTimestamps })

/-- Drawdown% as the spec words it: `(initialCapital −
currentCapital)/initialCapital × 100`. -/
def drawdownOf (limits : RiskLimits) (currentCapital : ℚ) : ℚ :=
  (limits.initialCapital - currentCapital) / limits.initialCapital * 100

/-- The six risk checks in the spec's fixed order — pause, drawdown, daily
loss, minimum reserve, trades-per-hour, cooldown — each paired with the
reason it supplies when it fails. -/
def riskCheckFlags (limits : RiskLimits) (rs1 : RiskState) (usdcBalance : ℚ)
    (drawdownPercent : ℚ) (tradesThisHour : ℕ) (now : ℤ) : List (Bool × RiskReason) :=
  [(rs1.isPaused, RiskReason.manuallyPaused),
   (decide (drawdownPercent ≥ limits.maxDrawdownPercent), RiskReason.maxDrawdownReached),
   (decide (rs1.dailyPnl < 0 ∧
      |rs1.dailyPnl| / limits.initialCapital * 100 ≥ limits.maxDailyLossPercent),
     RiskReason.dailyLossLimitReached),
   (decide (usdcBalance < limits.minCapitalReserve), RiskReason.belowMinimumReserve),
   (decide (tradesThisHour ≥ limits.maxTradesPerHour), RiskReason.maxTradesPerHourReached),
   (decide (rs1.lastLossTime > 0 ∧ now - rs1.lastLossTime < limits.cooldownAfterLoss * 1000),
     RiskReason.cooldownAfterLoss)]

/-- First-failing-check-wins semantics: deny with the first set flag's
reason, allow when no flag is set. -/
def firstFailing (checks : List (Bool × RiskReason)) : Bool × RiskReason :=
  match checks.find? (fun c => c.1) with
  | some c => (false, c.2)
  | none => (true, RiskReason.tradingAllowed)

/-- The check flags as `checkRisk` evaluates them, from its raw inputs. -/
def checkFlagsOf (limits : RiskLimits) (rs : RiskState) (usdcBalance positionValue : ℚ)
    (now dayStart : ℤ) : List (Bool × RiskReason) :=
  riskCheckFlags limits (checkDailyReset rs now dayStart) usdcBalance
    (drawdownOf limits (usdcBalance + positionValue))
    ((checkDailyReset rs now dayStart).tradeTimestamps.filter
      (fun t => decide (t > now - 3600000))).length
    now

theorem firstFailing_true_iff (cs : List (Bool × RiskReason)) :
    (firstFailing cs).1 = true ↔ ∀ c ∈ cs, c.1 = false := by
  unfold firstFailing
  rcases hf : cs.find? (fun c => c.1) with _ | c
  · simp only [hf]
    rw [List.find?_eq_none] at hf
    constructor
    · intro _ c hc
      have h2 := hf c hc
      simpa using h2
    · intro _
      trivial
  · simp only [hf]
    constructor
    · intro h
      exact absurd h (by simp)
    · intro hall
      have hc := List.mem_of_find?_eq_some hf
      have hp : c.1 = true := by simpa using List.find?_some hf
      rw [hall c hc] at hp
      exact absurd hp (by simp)

/-- **C3.** The risk gate evaluates its checks in the fixed order pause,
drawdown, daily loss, minimum reserve, trades-per-hour, cooldown: the
decision and reason are exactly those of the first failing check in that
order, and if no check fails the decision is allowed.  The reported
drawdown% equals `(initialCapital − currentCapital)/initialCapital×100`
(for a positive initial capital, as configured — default 100). -/
theorem checkRisk_ordered_first_failing (limits : RiskLimits) (rs : RiskState)
    (usdcBalance positionValue netPnl : ℚ) (now dayStart : ℤ)
    (hinit : 0 < limits.initialCapital) :
    (checkRisk limits rs usdcBalance positionValue netPnl now dayStart).1.drawdownPercent
      = drawdownOf limits (usdcBalance + positionValue) ∧
    ((checkRisk limits rs usdcBalance positionValue netPnl now dayStart).1.isTradeAllowed,
     (checkRisk limits rs usdcBalance positionValue netPnl now dayStart).1.reason)
      = firstFailing (checkFlagsOf limits rs usdcBalance positionValue now dayStart) ∧
    ((checkRisk limits rs usdcBalance positionValue netPnl now dayStart).1.isTradeAllowed = true
      ↔ ∀ c ∈ checkFlagsOf limits rs usdcBalance positionValue now dayStart, c.1 = false) := by
  have hpos : limits.initialCapital > 0 := hinit
  have hd : (if limits.initialCapital > 0
      then (limits.initialCapital - (usdcBalance + positionValue)) / limits.initialCapital * 100
      else 0) = drawdownOf limits (usdcBalance + positionValue) := by
    rw [if_pos hpos]
    rfl
  refine ⟨?_, ?_, ?_⟩
  · simp only [checkRisk, hd]
  · simp only [checkRisk, hd, checkFlagsOf, riskCheckFlags, firstFailing]
    by_cases h1 : (checkDailyReset rs now dayStart).isPaused
    · simp [h1]
    · simp only [h1, if_false, Bool.false_eq_true, List.find?_cons_of_neg, decide_False]
      by_cases h2 : drawdownOf limits (usdcBalance + positionValue) ≥ limits.maxDrawdownPercent
      · simp [h1, h2]
      · by_cases h3 : (checkDailyReset rs now dayStart).dailyPnl < 0 ∧
            |(checkDailyReset rs now dayStart).dailyPnl| / limits.initialCapital * 100
              ≥ limits.maxDailyLossPercent
        · simp [h1, h2, h3]
        · by_cases h4 : usdcBalance < limits.minCapitalReserve
          · simp [h1, h2, h3, h4]
          · by_cases h5 : ((checkDailyReset rs now dayStart).tradeTimestamps.filter
                (fun t => decide (t > now - 3600000))).length ≥ limits.maxTradesPerHour
            · simp [h1, h2, h3, h4, h5]
            · by_cases h6 : (checkDailyReset rs now dayStart).lastLossTime > 0 ∧
                  now - (checkDailyReset rs now dayStart).lastLossTime
                    < limits.cooldownAfterLoss * 1000
              · simp [h1, h2, h3, h4, h5, h6]
              · simp [h1, h2, h3, h4, h5, h6]
  · have hpair : ((checkRisk limits rs usdcBalance positionValue netPnl now dayStart).1.isTradeAllowed,
        (checkRisk limits rs usdcBalance positionValue netPnl now dayStart).1.reason)
          = firstFailing (checkFlagsOf limits rs usdcBalance positionValue now dayStart) := by
      simp only [checkRisk, hd, checkFlagsOf, riskCheckFlags, firstFailing]
      by_cases h1 : (checkDailyReset rs now dayStart).isPaused
      · simp [h1]
      · by_cases h2 : drawdownOf limits (usdcBalance + positionValue) ≥ limits.maxDrawdownPercent
        · simp [h1, h2]
        · by_cases h3 : (checkDailyReset rs now dayStart).dailyPnl < 0 ∧
              |(checkDailyReset rs now dayStart).dailyPnl| / limits.initialCapital * 100
                ≥ limits.maxDailyLossPercent
          · simp [h1, h2, h3]
          · by_cases h4 : usdcBalance < limits.minCapitalReserve
            · simp [h1, h2, h3, h4]
            · by_cases h5 : ((checkDailyReset rs now dayStart).tradeTimestamps.filter
                  (fun t => decide (t > now - 3600000))).length ≥ limits.maxTradesPerHour
              · simp [h1, h2, h3, h4, h5]
              · by_cases h6 : (checkDailyReset rs now dayStart).lastLossTime > 0 ∧
                    now - (checkDailyReset rs now dayStart).lastLossTime
                      < limits.cooldownAfterLoss * 1000
                · simp [h1, h2, h3, h4, h5, h6]
                · simp [h1, h2, h3, h4, h5, h6]
    have := congrArg Prod.fst hpair
    simp only at this
    rw [this]
    exact firstFailing_true_iff _

/-- The claim's concrete example: initial capital 100, current capital
89, max drawdown 10%. -/
def exampleLimits : RiskLimits :=
  { initialCapital := 100, maxDrawdownPercent := 10, maxDailyLossPercent := 5,
    maxPositionSizePercent := 30, minCapitalReserve := 10, maxTradesPerHour := 20,
    cooldownAfterLoss := 300 }

def exampleRiskState : RiskState :=
  { tradeTimestamps := [], dailyPnl := 0, dailyStartTime := 0, lastLossTime := 0,
    isPaused := false }

/-- C3 witness: with initial capital 100, current capital 89 and max
drawdown 10, the gate denies trading with drawdown 11% under the
drawdown reason. -/
theorem checkRisk_ordered_first_failing_witness :
    (0 : ℚ) < exampleLimits.initialCapital ∧
    (checkRisk exampleLimits exampleRiskState 89 0 (-11) 0 0).1.drawdownPercent = 11 ∧
    (checkRisk exampleLimits exampleRiskState 89 0 (-11) 0 0).1.isTradeAllowed = false ∧
    (checkRisk exampleLimits exampleRiskState 89 0 (-11) 0 0).1.reason
      = RiskReason.maxDrawdownReached := by
  have h := checkRisk_ordered_first_failing exampleLimits exampleRiskState 89 0 (-11) 0 0
    (by norm_num [exampleLimits])
  have hff : firstFailing (checkFlagsOf exampleLimits exampleRiskState 89 0 0 0)
      = (false, RiskReason.maxDrawdownReached) := by
    norm_num [firstFailing, checkFlagsOf, riskCheckFlags, drawdownOf, checkDailyReset,
      exampleLimits, exampleRiskState]
  refine ⟨by norm_num [exampleLimits], ?_, ?_, ?_⟩
  · rw [h.1]
    norm_num [drawdownOf, exampleLimits]
  · have := h.2.1
    rw [hff] at this
    exact congrArg Prod.fst this
  · have := h.2.1
    rw [hff] at this
    exact congrArg Prod.snd this

end RiskManager

/-! ## Backtest simulator (`Backtester`)

`runBacktest` throws on insufficient data in the source; the model
returns `none` there.  Only the candle close prices and timestamps are
read by the replay loop. -/

structure Candle where
  timestamp : ℤ
  openPrice : ℚ
  highPrice : ℚ
  lowPrice : ℚ
  closePrice : ℚ
  volume : ℚ
  deriving DecidableEq, Inhabited

/-- A recorded simulated round trip (`BacktestTrade`; the recorded side is
always the closing SELL). -/
structure BtTrade where
  timestamp : ℤ
  entryPrice : ℚ
  exitPrice : ℚ
  size : ℚ
  pnl : ℚ
  pnlPercent : ℚ
  holdingPeriod : ℕ
  deriving DecidableEq

structure BtPosition where
  entryPrice : ℚ
  size : ℚ
  entryIndex : ℕ
  deriving DecidableEq

structure BacktestConfig where
  initialCapital : ℚ
  positionSizePercent : ℚ
  takeProfitPercent : ℚ
  stopLossPercent : ℚ
  slippagePercent : ℚ
  tradingFeePercent : ℚ
  deriving DecidableEq

structure BacktestResult where
  startTime : ℤ
  endTime : ℤ
  initialCapital : ℚ
  finalCapital : ℚ
  totalReturn : ℚ
  totalReturnPercent : ℚ
  totalTrades : ℕ
  winningTrades : ℕ
  losingTrades : ℕ
  winRate : ℚ
  avgWin : ℚ
  avgLoss : ℚ
  profitFactor : ℚ
  maxDrawdown : ℚ
  maxDrawdownPercent : ℚ
  sharpe : ℚ
  trades : List BtTrade
  deriving DecidableEq

/-- The in-loop simulator state. -/
structure BtState where
  capital : ℚ
  position : Option BtPosition
  maxCapital : ℚ
  maxDrawdown : ℚ
  trades : List BtTrade
  deriving DecidableEq

namespace Backtester

/-- The backtester's own `calculateSMA` over a historical price slice. -/
def calculateSMA (prices : List ℚ) (period : ℕ) : Option ℚ :=
  if prices.length < period then none
  else some (sumQ (lastSlice period prices) / period)

/-- The backtester's own `calculateRSI`: its change loop collects exactly
the last `period` adjacent deltas of the price list, then accumulates
gains and losses with the same fold as the live indicator engine
(`MarketDataService.gainsLosses`). -/
def calculateRSI (prices : List ℚ) (period : ℕ) : Option ℚ :=
  if prices.length < period + 1 then none
  else
    let changes := lastSlice period (List.zipWith (fun a b => a - b) prices.tail prices)
    let gl := MarketDataService.gainsLosses changes
    if gl.2 = 0 then some 100
    else
      let avgGain := gl.1 / period
      let avgLoss := gl.2 / period
      let rs := avgGain / avgLoss
      some (100 - 100 / (1 + rs))

/-- The backtester's own `calculateVolatility`. -/
def calculateVolatility (prices : List ℚ) (period : ℕ) : Option ℚ :=
  if prices.length < period then none
  else
    let slice := lastSlice period prices
    let mean := sumQ slice / period
    let variance := sumQ (slice.map (fun p => (p - mean) ^ 2)) / period
    some (Rat.sqrt variance / mean * 100)

/-- `generateSignal` over the price prefix up to `index` (the duplicated
historical signal logic): 30-candle warm-up, then RSI-oversold BUY,
RSI-overbought SELL, or low-volatility momentum-breakout BUY. -/
def generateSignal (prices : List ℚ) (index : ℕ) : Verdict × ℚ :=
  let lookback := prices.take (index + 1)
  if lookback.length < 30 then (Verdict.hold, 0)
  else
    match calculateSMA lookback 5, calculateSMA lookback 20,
          calculateRSI lookback 14, calculateVolatility lookback 20 with
    | some sma5, some sma20, some rsi, some volatility =>
        let trendStrength := (sma5 - sma20) / sma20 * 100
        if rsi < 30 ∧ trendStrength > -2 then
          (Verdict.buy, min (4/5) ((30 - rsi) / 30))
        else if rsi > 70 ∧ trendStrength < 2 then
          (Verdict.sell, min (4/5) ((rsi - 70) / 30))
        else if volatility < 2 ∧ trendStrength > 1/2 then (Verdict.buy, 3/5)
        else (Verdict.hold, 0)
    | _, _, _, _ => (Verdict.hold, 0)

/-- The close-out computation shared verbatim by the take-profit,
stop-loss and end-of-series blocks: slippage-adjusted exit price, gross
PnL on the position size, fee on notional, and the recorded trade. -/
def closeTrade (cfg : BacktestConfig) (pos : BtPosition) (currentPrice : ℚ)
    (ts : ℤ) (i : ℕ) : ℚ × BtTrade :=
  let exitPrice := currentPrice * (1 - cfg.slippagePercent / 100)
  let grossPnl := pos.size * ((exitPrice - pos.entryPrice) / pos.entryPrice)
  let fee := pos.size * (cfg.tradingFeePercent / 100)
  let netPnl := grossPnl - fee
  (netPnl,
    { timestamp := ts, entryPrice := pos.entryPrice, exitPrice := exitPrice,
      size := pos.size, pnl := netPnl, pnlPercent := netPnl / pos.size * 100,
      holdingPeriod := i - pos.entryIndex })

/-- One iteration of the `runBacktest` candle loop: manage an open
position (take profit / stop loss against the close), otherwise consult
`generateSignal` and open on a BUY with confidence ≥ 0.6, then track the
running capital peak and percentage drawdown. -/
def btStep (cfg : BacktestConfig) (prices : List ℚ) (candles : List Candle)
    (st : BtState) (i : ℕ) : BtState :=
  let candle := candles.getD i default
  let currentPrice := candle.closePrice
  let st1 : BtState :=
    match st.position with
    | some pos =>
        let pnlPercent := (currentPrice - pos.entryPrice) / pos.entryPrice * 100
        if pnlPercent ≥ cfg.takeProfitPercent then
          let r := closeTrade cfg pos currentPrice candle.timestamp i
          { st with capital := st.capital + r.1, trades := st.trades ++ [r.2],
                    position := none }
        else if pnlPercent ≤ -cfg.stopLossPercent then
          let r := closeTrade cfg pos currentPrice candle.timestamp i
          { st with capital := st.capital + r.1, trades := st.trades ++ [r.2],
                    position := none }
        else st
    | none => st
  let st2 : BtState :=
    match st1.position with
    | none =>
        let sc := generateSignal prices i
        if sc.1 = Verdict.buy ∧ sc.2 ≥ 3/5 then
          let positionSize := st1.capital * (cfg.positionSizePercent / 100)
          let entryPrice := currentPrice * (1 + cfg.slippagePercent / 100)
          let fee := positionSize * (cfg.tradingFeePercent / 100)
          { st1 with capital := st1.capital - fee,
                     position := some ⟨entryPrice, positionSize, i⟩ }
        else st1
    | some _ => st1
  let maxCapital := if st2.capital > st2.maxCapital then st2.capital else st2.maxCapital
  let currentDrawdown := (maxCapital - st2.capital) / maxCapital * 100
  let maxDrawdown :=
    if currentDrawdown > st2.maxDrawdown then currentDrawdown else st2.maxDrawdown
  { st2 with maxCapital := maxCapital, maxDrawdown := maxDrawdown }

/-- `runBacktest`: replay candles 30…end over the starting state, force
close any remaining position at the final close, then aggregate the
statistics (winners strictly by `pnl > 0`, losers by `pnl ≤ 0`). -/
def runBacktest (cfg : BacktestConfig) (candles : List Candle) : Option BacktestResult :=
  if candles.length < 50 then none
  else
    let prices := candles.map (fun k => k.closePrice)
    let init : BtState :=
      { capital := cfg.initialCapital, position := none,
        maxCapital := cfg.initialCapital, maxDrawdown := 0, trades := [] }
    let looped := ((List.range candles.length).drop 30).foldl (btStep cfg prices candles) init
    let final : BtState :=
      match looped.position with
      | some pos =>
          let lastCandle := candles.getD (candles.length - 1) default
          let r := closeTrade cfg pos lastCandle.closePrice lastCandle.timestamp
            (candles.length - 1)
          { looped with capital := looped.capital + r.1,
                        trades := looped.trades ++ [r.2], position := none }
      | none => looped
    let winning := final.trades.filter (fun t => decide (t.pnl > 0))
    let losing := final.trades.filter (fun t => decide (t.pnl ≤ 0))
    let totalWins := winning.foldl (fun a t => a + t.pnl) 0
    let totalLosses := losing.foldl (fun a t => a + |t.pnl|) 0
    let avgWin := if winning.length > 0 then totalWins / (winning.length : ℚ) else 0
    let avgLoss := if losing.length > 0 then totalLosses / (losing.length : ℚ) else 0
    let profitFactor := if totalLosses > 0 then totalWins / totalLosses else 999
    let returns := final.trades.map (fun t => t.pnlPercent)
    let avgReturn := if returns.length > 0 then sumQ returns / (returns.length : ℚ) else 0
    let stdDev :=
      if returns.length > 1
      then Rat.sqrt (sumQ (returns.map (fun r => (r - avgReturn) ^ 2))
        / ((returns.length - 1 : ℕ) : ℚ))
      else 1
    let sharpe := if stdDev > 0 then avgReturn / stdDev else 0
    some
      { startTime := (candles.getD 0 default).timestamp,
        endTime := (candles.getD (candles.length - 1) default).timestamp,
        initialCapital := cfg.initialCapital,
        finalCapital := final.capital,
        totalReturn := final.capital - cfg.initialCapital,
        totalReturnPercent := (final.capital - cfg.initialCapital) / cfg.initialCapital * 100,
        totalTrades := final.trades.length,
        winningTrades := winning.length,
        losingTrades := losing.length,
        winRate :=
          if final.trades.length > 0
          then (winning.length : ℚ) / final.trades.length * 100
          else 0,
        avgWin := avgWin, avgLoss := avgLoss, profitFactor := profitFactor,
        maxDrawdown := final.maxDrawdown, maxDrawdownPercent := final.maxDrawdown,
        sharpe := sharpe, trades := final.trades }

end Backtester

/-! ### Constant-price toolkit for C9 -/

theorem foldl_add_const (c : ℚ) :
    ∀ (l : List ℚ) (a : ℚ), (∀ x ∈ l, x = c) → l.foldl (· + ·) a = a + l.length * c := by
  intro l
  induction l with
  | nil =>
    intro a _
    simp
  | cons x xs ih =>
    intro a h
    rw [List.foldl_cons, ih (a + x) (fun y hy => h y (List.mem_cons_of_mem _ hy)),
      h x (List.mem_cons_self _ _)]
    simp only [List.length_cons]
    push_cast
    ring

theorem sumQ_const (c : ℚ) (l : List ℚ) (h : ∀ x ∈ l, x = c) : sumQ l = l.length * c := by
  rw [sumQ, foldl_add_const c l 0 h, zero_add]

theorem zipWith_sub_shift_const (c : ℚ) :
    ∀ (l : List ℚ) (a : ℚ), (∀ x ∈ a :: l, x = c) →
      ∀ y ∈ List.zipWith (fun p q => p - q) l (a :: l), y = 0 := by
  intro l
  induction l with
  | nil =>
    intro a _ y hy
    simp at hy
  | cons b bs ih =>
    intro a h y hy
    rw [List.zipWith_cons_cons] at hy
    rcases List.mem_cons.mp hy with hy | hy
    · rw [hy, h b (by simp), h a (by simp), sub_self]
    · exact ih b (fun x hx => h x (List.mem_cons_of_mem _ hx)) y hy

theorem zipWith_sub_tail_const (c : ℚ) (l : List ℚ) (h : ∀ x ∈ l, x = c) :
    ∀ y ∈ List.zipWith (fun p q => p - q) l.tail l, y = 0 := by
  cases l with
  | nil =>
    intro y hy
    simp at hy
  | cons a l =>
    exact zipWith_sub_shift_const c l a h

theorem foldl_gainsLosses_zeros :
    ∀ (ds : List ℚ) (acc : ℚ × ℚ), (∀ x ∈ ds, x = 0) →
      ds.foldl (fun gl change =>
        if change > 0 then (gl.1 + change, gl.2) else (gl.1, gl.2 + |change|)) acc = acc := by
  intro ds
  induction ds with
  | nil =>
    intro acc _
    rfl
  | cons x xs ih =>
    intro acc h
    rw [List.foldl_cons, h x (List.mem_cons_self _ _)]
    have hstep : (if (0 : ℚ) > 0 then (acc.1 + 0, acc.2) else (acc.1, acc.2 + |(0 : ℚ)|)) = acc := by
      simp
    rw [hstep]
    exact ih acc (fun y hy => h y (List.mem_cons_of_mem _ hy))

theorem gainsLosses_zeros (ds : List ℚ) (h : ∀ x ∈ ds, x = 0) :
    MarketDataService.gainsLosses ds = (0, 0) :=
  foldl_gainsLosses_zeros ds (0, 0) h

theorem foldl_fixed {α β : Type} (f : β → α → β) (b : β) :
    ∀ l : List α, (∀ a ∈ l, f b a = b) → l.foldl f b = b := by
  intro l
  induction l with
  | nil =>
    intro _
    rfl
  | cons x xs ih =>
    intro h
    rw [List.foldl_cons, h x (List.mem_cons_self _ _)]
    exact ih (fun a ha => h a (List.mem_cons_of_mem _ ha))

namespace Backtester

theorem calculateSMA_const (c : ℚ) (l : List ℚ) (period : ℕ) (hp : 0 < period)
    (hlen : period ≤ l.length) (h : ∀ x ∈ l, x = c) :
    calculateSMA l period = some c := by
  have hne : (period : ℚ) ≠ 0 := Nat.cast_ne_zero.mpr hp.ne'
  unfold calculateSMA
  rw [if_neg (not_lt.mpr hlen)]
  have hconst : ∀ x ∈ lastSlice period l, x = c := fun x hx => h x (List.mem_of_mem_drop hx)
  rw [sumQ_const c _ hconst, length_lastSlice]
  have h2 : l.length - (l.length - period) = period := by omega
  rw [h2, mul_comm, mul_div_assoc, div_self hne, mul_one]

theorem calculateRSI_const (c : ℚ) (l : List ℚ) (period : ℕ)
    (hlen : period + 1 ≤ l.length) (h : ∀ x ∈ l, x = c) :
    calculateRSI l period = some 100 := by
  have hz : ∀ y ∈ lastSlice period (List.zipWith (fun a b => a - b) l.tail l), y = 0 :=
    fun y hy => zipWith_sub_tail_const c l h y (List.mem_of_mem_drop hy)
  unfold calculateRSI
  rw [if_neg (not_lt.mpr hlen)]
  have hgl := gainsLosses_zeros _ hz
  simp only [hgl]
  simp

theorem calculateVolatility_const (c : ℚ) (l : List ℚ) (period : ℕ) (hp : 0 < period)
    (hc : c ≠ 0) (hlen : period ≤ l.length) (h : ∀ x ∈ l, x = c) :
    calculateVolatility l period = some 0 := by
  have hne : (period : ℚ) ≠ 0 := Nat.cast_ne_zero.mpr hp.ne'
  have hconst : ∀ x ∈ lastSlice period l, x = c := fun x hx => h x (List.mem_of_mem_drop hx)
  have hmean : sumQ (lastSlice period l) / (period : ℚ) = c := by
    rw [sumQ_const c _ hconst, length_lastSlice]
    have h2 : l.length - (l.length - period) = period := by omega
    rw [h2, mul_comm, mul_div_assoc, div_self hne, mul_one]
  have hzero : ∀ x ∈ (lastSlice period l).map (fun p => (p - c) ^ 2), x = 0 := by
    intro x hx
    obtain ⟨p, hp2, rfl⟩ := List.mem_map.mp hx
    rw [hconst p hp2, sub_self]
    norm_num
  have hsq : sumQ ((lastSlice period l).map (fun p => (p - c) ^ 2)) = 0 := by
    rw [sumQ_const 0 _ hzero, mul_zero]
  have hsqrt : Rat.sqrt 0 = 0 := by
    simpa using Rat.sqrt_eq 0
  unfold calculateVolatility
  rw [if_neg (not_lt.mpr hlen)]
  simp only [hmean]
  rw [hsq, zero_div, hsqrt, zero_div, zero_mul]

theorem generateSignal_flat (prices : List ℚ) (c : ℚ) (h : ∀ x ∈ prices, x = c)
    (hc : 0 < c) (i : ℕ) : (generateSignal prices i).1 ≠ Verdict.buy := by
  simp only [generateSignal]
  by_cases hlb : (prices.take (i + 1)).length < 30
  · rw [if_pos hlb]
    simp
  · rw [if_neg hlb]
    have h30 : 30 ≤ (prices.take (i + 1)).length := not_lt.mp hlb
    have hconst : ∀ x ∈ prices.take (i + 1), x = c :=
      fun x hx => h x (List.mem_of_mem_take hx)
    rw [calculateSMA_const c _ 5 (by norm_num) (by omega) hconst,
        calculateSMA_const c _ 20 (by norm_num) (by omega) hconst,
        calculateRSI_const c _ 14 (by omega) hconst,
        calculateVolatility_const c _ 20 (by norm_num) hc.ne' (by omega) hconst]
    norm_num [sub_self]
    decide

theorem btStep_flat (cfg : BacktestConfig) (candles : List Candle) (c : ℚ)
    (hflat : ∀ k ∈ candles, k.closePrice = c) (hc : 0 < c) (i : ℕ) :
    btStep cfg (candles.map (fun k => k.closePrice)) candles
        ⟨cfg.initialCapital, none, cfg.initialCapital, 0, []⟩ i
      = ⟨cfg.initialCapital, none, cfg.initialCapital, 0, []⟩ := by
  have hpr : ∀ x ∈ candles.map (fun k => k.closePrice), x = c := by
    intro x hx
    obtain ⟨k, hk, rfl⟩ := List.mem_map.mp hx
    exact hflat k hk
  have hsig := generateSignal_flat _ c hpr hc i
  simp only [btStep]
  rw [if_neg (fun hand => hsig (And.left hand))]
  rw [if_neg (lt_irrefl cfg.initialCapital)]
  rw [sub_self, zero_div, zero_mul]
  rw [if_neg (lt_irrefl (0 : ℚ))]

/-- **C9.** On an all-flat candle series (constant positive close) the
backtest simulator never generates a BUY signal, so — only BUY signals
with confidence ≥ 0.6 opening simulated positions — it produces zero
trades and a final capital equal to the initial capital. -/
theorem runBacktest_flat_zero_trades (cfg : BacktestConfig) (candles : List Candle) (c : ℚ)
    (hflat : ∀ k ∈ candles, k.closePrice = c) (hc : 0 < c)
    (hinit : 0 < cfg.initialCapital) (hlen : 50 ≤ candles.length) :
    (∀ i : ℕ, (generateSignal (candles.map (fun k => k.closePrice)) i).1 ≠ Verdict.buy) ∧
    ∃ res, runBacktest cfg candles = some res ∧
      res.totalTrades = 0 ∧ res.trades = [] ∧ res.finalCapital = cfg.initialCapital := by
  have hpr : ∀ x ∈ candles.map (fun k => k.closePrice), x = c := by
    intro x hx
    obtain ⟨k, hk, rfl⟩ := List.mem_map.mp hx
    exact hflat k hk
  refine ⟨fun i => generateSignal_flat _ c hpr hc i, ?_⟩
  have hfold : ((List.range candles.length).drop 30).foldl
      (btStep cfg (candles.map (fun k => k.closePrice)) candles)
      ⟨cfg.initialCapital, none, cfg.initialCapital, 0, []⟩
      = ⟨cfg.initialCapital, none, cfg.initialCapital, 0, []⟩ :=
    foldl_fixed _ _ _ (fun i _ => btStep_flat cfg candles c hflat hc i)
  simp only [runBacktest]
  rw [if_neg (not_lt.mpr hlen)]
  rw [hfold]
  exact ⟨_, rfl, rfl, rfl, rfl⟩

/-- The concrete flat series for the C9 witness. -/
def flatCandle : Candle := ⟨0, 100, 100, 100, 100, 0⟩

def flatCandles : List Candle := List.replicate 50 flatCandle

def flatConfig : BacktestConfig := ⟨1000, 30, 1/2, 3/10, 1/10, 1/10⟩

/-- C9 witness: a 50-candle constant-close series at price 100 with
initial capital 1000 yields zero trades and final capital 1000. -/
theorem runBacktest_flat_zero_trades_witness :
    ((∀ k ∈ flatCandles, k.closePrice = (100 : ℚ)) ∧ (0 : ℚ) < 100 ∧
      0 < flatConfig.initialCapital ∧ 50 ≤ flatCandles.length) ∧
    (∃ res, runBacktest flatConfig flatCandles = some res ∧
      res.totalTrades = 0 ∧ res.trades = [] ∧ res.finalCapital = flatConfig.initialCapital) := by
  have h1 : ∀ k ∈ flatCandles, k.closePrice = (100 : ℚ) := by
    intro k hk
    simp only [flatCandles] at hk
    rw [List.eq_of_mem_replicate hk]
    rfl
  have h4 : 50 ≤ flatCandles.length := by
    simp [flatCandles]
  exact ⟨⟨h1, by norm_num, by norm_num [flatConfig], h4⟩,
    (runBacktest_flat_zero_trades flatConfig flatCandles 100 h1 (by norm_num)
      (by norm_num [flatConfig]) h4).2⟩

end Backtester

/-! ### C10 — zero PnL counts as a loss -/

theorem filter_pos_add_filter_nonpos (l : List BtTrade) :
    (l.filter (fun t => decide (t.pnl > 0))).length
      + (l.filter (fun t => decide (t.pnl ≤ 0))).length = l.length := by
  induction l with
  | nil => rfl
  | cons t ts ih =>
    rw [List.filter_cons, List.filter_cons]
    by_cases h : t.pnl > 0
    · rw [if_pos (by simpa using h), if_neg (by simpa using not_le.mpr h)]
      simp only [List.length_cons]
      omega
    · rw [if_neg (by simpa using h), if_pos (by simpa using not_lt.mp h)]
      simp only [List.length_cons]
      omega

/-- **C10.** Every closed trade with realized PnL exactly zero is counted
as a losing trade, in both the live position ledger (`closePosition`
increments `winningTrades` only on strictly positive PnL and
`losingTrades` otherwise) and the backtest simulator (winners are trades
with `pnl > 0`, losers those with `pnl ≤ 0`); consequently
`winningTrades + losingTrades = totalTrades` is preserved by every close
and holds of every backtest result. -/
theorem zero_pnl_counted_as_loss :
    (∀ (env : TradeEnv) (st : StrategyState) (position : Position) (currentPrice : ℚ)
        (quote : Quote) (result : SwapResult),
      env.getQuote (TradingStrategy.closeRequest st position) = some quote →
      env.executeSwap quote = some result →
      (TradingStrategy.closePosition env st position currentPrice).stats.totalTrades
          = st.stats.totalTrades + 1 ∧
      (TradingStrategy.closePosition env st position currentPrice).stats.winningTrades
          = (if result.outputAmount - position.usdcSpent > 0
             then st.stats.winningTrades + 1 else st.stats.winningTrades) ∧
      (TradingStrategy.closePosition env st position currentPrice).stats.losingTrades
          = (if result.outputAmount - position.usdcSpent > 0
             then st.stats.losingTrades else st.stats.losingTrades + 1) ∧
      (result.outputAmount - position.usdcSpent = 0 →
        (TradingStrategy.closePosition env st position currentPrice).stats.losingTrades
            = st.stats.losingTrades + 1 ∧
        (TradingStrategy.closePosition env st position currentPrice).stats.winningTrades
            = st.stats.winningTrades)) ∧
    (∀ (env : TradeEnv) (st : StrategyState) (position : Position) (currentPrice : ℚ),
      st.stats.winningTrades + st.stats.losingTrades = st.stats.totalTrades →
      (TradingStrategy.closePosition env st position currentPrice).stats.winningTrades
          + (TradingStrategy.closePosition env st position currentPrice).stats.losingTrades
          = (TradingStrategy.closePosition env st position currentPrice).stats.totalTrades) ∧
    (∀ (cfg : BacktestConfig) (candles : List Candle) (res : BacktestResult),
      Backtester.runBacktest cfg candles = some res →
      res.winningTrades + res.losingTrades = res.totalTrades ∧
      res.winningTrades = (res.trades.filter (fun t => decide (t.pnl > 0))).length ∧
      res.losingTrades = (res.trades.filter (fun t => decide (t.pnl ≤ 0))).length) := by
  have hcounts : ∀ (env : TradeEnv) (st : StrategyState) (position : Position)
      (currentPrice : ℚ) (quote : Quote) (result : SwapResult),
      env.getQuote (TradingStrategy.closeRequest st position) = some quote →
      env.executeSwap quote = some result →
      (TradingStrategy.closePosition env st position currentPrice).stats.totalTrades
          = st.stats.totalTrades + 1 ∧
      (TradingStrategy.closePosition env st position currentPrice).stats.winningTrades
          = (if result.outputAmount - position.usdcSpent > 0
             then st.stats.winningTrades + 1 else st.stats.winningTrades) ∧
      (TradingStrategy.closePosition env st position currentPrice).stats.losingTrades
          = (if result.outputAmount - position.usdcSpent > 0
             then st.stats.losingTrades else st.stats.losingTrades + 1) := by
    intro env st position currentPrice quote result hq hx
    unfold TradingStrategy.closePosition
    simp only [hq, hx]
    refine ⟨?_, ?_, ?_⟩ <;> first
      | rfl
      | trivial
  refine ⟨?_, ?_, ?_⟩
  · intro env st position currentPrice quote result hq hx
    obtain ⟨h1, h2, h3⟩ := hcounts env st position currentPrice quote result hq hx
    refine ⟨h1, h2, h3, fun hz => ?_⟩
    rw [hz] at h2 h3
    rw [if_neg (lt_irrefl (0 : ℚ))] at h2 h3
    exact ⟨h3, h2⟩
  · intro env st position currentPrice hsum
    rcases hq : env.getQuote (TradingStrategy.closeRequest st position) with _ | q
    · have hid : TradingStrategy.closePosition env st position currentPrice = st := by
        unfold TradingStrategy.closePosition
        simp only [hq]
      rw [hid]
      exact hsum
    · rcases hx : env.executeSwap q with _ | r
      · have hid : TradingStrategy.closePosition env st position currentPrice = st := by
          unfold TradingStrategy.closePosition
          simp only [hq, hx]
        rw [hid]
        exact hsum
      · obtain ⟨h1, h2, h3⟩ := hcounts env st position currentPrice q r hq hx
        rw [h1, h2, h3]
        by_cases hpnl : r.outputAmount - position.usdcSpent > 0
        · rw [if_pos hpnl, if_pos hpnl]
          omega
        · rw [if_neg hpnl, if_neg hpnl]
          omega
  · intro cfg candles res h
    simp only [Backtester.runBacktest] at h
    by_cases hlen : candles.length < 50
    · rw [if_pos hlen] at h
      exact absurd h (by simp)
    · rw [if_neg hlen] at h
      have h2 := Option.some.inj h
      subst h2
      exact ⟨filter_pos_add_filter_nonpos _, rfl, rfl⟩

/-- The close environment for the C10 witness: the sell settles exactly
the 100 USDC the sample position committed, so realized PnL is zero. -/
def zeroPnlEnv : TradeEnv :=
  { getQuote := fun _ => some TradingStrategy.mismatchQuote,
    executeSwap := fun _ => some ⟨5, 100⟩,
    lastPrice := fun _ => none,
    now := 0 }

/-- C10 witness: closing the sample position at zero PnL increments the
losing-trade counter and leaves the winning-trade counter unchanged. -/
theorem zero_pnl_counted_as_loss_witness :
    (zeroPnlEnv.getQuote
        (TradingStrategy.closeRequest TradingStrategy.sampleState TradingStrategy.samplePosition)
        = some TradingStrategy.mismatchQuote ∧
      zeroPnlEnv.executeSwap TradingStrategy.mismatchQuote = some ⟨5, 100⟩ ∧
      (⟨5, 100⟩ : SwapResult).outputAmount - TradingStrategy.samplePosition.usdcSpent = 0) ∧
    (TradingStrategy.closePosition zeroPnlEnv TradingStrategy.sampleState
        TradingStrategy.samplePosition 100).stats.losingTrades
      = TradingStrategy.sampleState.stats.losingTrades + 1 ∧
    (TradingStrategy.closePosition zeroPnlEnv TradingStrategy.sampleState
        TradingStrategy.samplePosition 100).stats.winningTrades
      = TradingStrategy.sampleState.stats.winningTrades := by
  have hz : (⟨5, 100⟩ : SwapResult).outputAmount
      - TradingStrategy.samplePosition.usdcSpent = 0 := by
    norm_num [TradingStrategy.samplePosition]
  exact ⟨⟨rfl, rfl, hz⟩,
    (zero_pnl_counted_as_loss.1 zeroPnlEnv TradingStrategy.sampleState
      TradingStrategy.samplePosition 100 TradingStrategy.mismatchQuote ⟨5, 100⟩
      rfl rfl).2.2.2 hz⟩

end PerpArb
